import Mathlib

/-!
Verification of the Mosaic component-rendering runtime (src/unnamed/part_000).

The development shallowly embeds the Mosaic component core in Lean:
JavaScript objects, arrays, DOM nodes and Observable wrappers live in an
explicit heap (addresses are natural numbers) so that reference identity,
aliasing and in-place mutation are faithfully represented.  The functions
`mosaicCtor`, `paint`, `repaintRun`, `mosaicNew`, `mosaicEquals` and
`makeArraysObservable` are translated line by line from the source file.
External collaborators that are not part of the repository's src tree
(the Observable proxy, MPart dirty-check/commit, the template parser,
validations and the random-key utility) are modelled from the spec; each
such definition carries a doc comment saying so.

Observable callbacks, repaints, MPart commits, template parses and DOM
replacements are recorded in an event log so that temporal claims (hook
ordering, parse-once, commit-iff-dirty) can be stated as facts about the
log.
-/

/-- JavaScript values: primitives plus references into the heap. -/
inductive JSVal where
  | undef
  | null
  | bool (b : Bool)
  | num (n : Int)
  | str (s : String)
  | ref (a : Nat)
deriving DecidableEq, Repr

/-- Which pair of Observable callbacks a wrapper carries: the data
observable built in the constructor (source lines 59-64) or the nested
array observable built in `makeArraysObservable` (source lines 158-163). -/
inductive ObsKind where
  | dataObs
  | arrayObs
deriving DecidableEq, Repr

/-- Heap objects: plain objects (ordered field lists, like JS insertion
order), arrays, Observable wrappers (a proxy around a target value, owned
by the component whose callbacks it fires), and DOM nodes.  A DOM node
carries whether it is an HTML element (a DocumentFragment is not) and a
list of child labels. -/
inductive HObj where
  | obj (fields : List (String × JSVal))
  | arr (elems : List JSVal)
  | observable (target : JSVal) (kind : ObsKind) (owner : Nat)
  | domNode (isHtml : Bool) (children : List Nat)
deriving DecidableEq, Repr

/-- Modelled from the spec: a MPart is a dynamic binding point tracking the
last committed value and a dirty flag (spec section 4.3; the MPart module is
not under src). -/
structure MPart where
  lastValue : JSVal
  dirty : Bool
deriving DecidableEq, Repr

instance : Inhabited MPart := ⟨⟨JSVal.undef, false⟩⟩

/-- Events recorded while the embedded program runs.  `viewInvoked` marks a
call of the component's view function, `partsCreated` a call of
`template.createParts` populating the cache, `replacedWith base el` the DOM
call `base.replaceWith(el)` in `paint`, and `commitPart i` a call of
`parts[i].commit`. -/
inductive Event where
  | viewInvoked (tid : String)
  | partsCreated (tid : String)
  | willUpdateCall (snapshot : List (String × JSVal))
  | repaintCall
  | updatedCall (args : List JSVal)
  | createdCall
  | commitPart (i : Nat)
  | replacedWith (base el : Nat)
deriving DecidableEq, Repr

/-- Errors surfaced by the embedded program.  `paintPrecond` is the error
thrown at the top of `paint` (source lines 88-91); `typeErr` stands for the
TypeErrors JavaScript raises when a property of `undefined` is accessed;
`refErr` is a ReferenceError naming the unbound identifier. -/
inductive JSError where
  | paintPrecond
  | typeErr
  | refErr (name : String)
deriving DecidableEq, Repr

deriving instance DecidableEq for Except

/-- Modelled from the spec: the external view function contract (spec
section 6).  A view is an opaque producer of a TemplateResult; we represent
it by its number of binding points and the function computing the values
matrix from the data object's fields. -/
structure ViewSpec where
  numParts : Nat
  compute : List (String × JSVal) → List (List JSVal)

/-- Modelled from the spec: the `{element, parts, values}` triple a view
function returns (spec section 6).  `contentAddr` is the heap address of
`template.element.content`, the template's DOM fragment. -/
structure Template where
  contentAddr : Nat
  matrix : List (List JSVal)
  numParts : Nat

/-- The configuration options for a Mosaic component (source lines 16-40).
`element` is either a DOM node address or absent (resolution of string ids
via getDOMfromID is an external collaborator and not modelled); `data` is
the address of the caller's data object.  The lifecycle hooks are recorded
by presence, their bodies being external. -/
structure Options where
  tid : Option String
  element : Option Nat
  data : Option Nat
  viewSpec : ViewSpec
  actions : JSVal
  created : Bool
  willUpdateHook : Bool
  updatedHook : Bool
  willDestroy : Bool

/-- A Mosaic component instance: the fields assigned by the constructor and
by `new` (source lines 45-84 and 122-140).  `partsArr` pairs an array
identity token with the MPart list so that `slice()` copies can be told
apart from the original array; `dataAddr` is the address of the data
Observable. -/
structure MosaicC where
  tid : String
  iid : Option String
  element : Option Nat
  dataAddr : Nat
  actions : JSVal
  viewSpec : ViewSpec
  created : Bool
  willUpdateHook : Bool
  updatedHook : Bool
  willDestroy : Bool
  partsArr : Option (Nat × List MPart)
  values : Option (List JSVal)
  opts : Options

/-- The program state: the heap with its allocation pointer, the component
registry, the process-wide TemplateTable, the counter backing `randomKey`,
the set of nodes attached to the document, and the event log. -/
structure World where
  heap : Nat → Option HObj
  next : Nat
  comps : Nat → Option MosaicC
  nextCid : Nat
  table : String → Option Template
  nextKey : Nat
  docNodes : List Nat
  log : List Event

namespace World

/-- Allocate a heap object at a fresh address. -/
def alloc (w : World) (o : HObj) : World × Nat :=
  ({ w with heap := fun a => if a = w.next then some o else w.heap a,
            next := w.next + 1 }, w.next)

/-- Reserve a fresh identity token (used for the identity of JS arrays that
hold Parts, which never live in the value heap). -/
def allocId (w : World) : World × Nat :=
  ({ w with next := w.next + 1 }, w.next)

/-- Overwrite the heap at an existing address. -/
def setHeap (w : World) (a : Nat) (o : HObj) : World :=
  { w with heap := fun b => if b = a then some o else w.heap b }

/-- Append an event to the log. -/
def logE (w : World) (e : Event) : World :=
  { w with log := w.log ++ [e] }

/-- Update a registered component in place. -/
def updateComp (w : World) (i : Nat) (f : MosaicC → MosaicC) : World :=
  match w.comps i with
  | some c => { w with comps := fun j => if j = i then some (f c) else w.comps j }
  | none => w

end World

/-- Modelled from the spec: `randomKey` (src/util is not under src); the
spec only needs keys that are fresh per call, so we derive them from a
counter. -/
def mkKey (n : Nat) : String := "k" ++ toString n

/-- Recursion fuel for walking chains of Observable wrappers in the heap. -/
def chainFuel : Nat := 100

/-- `Array.isArray(v)`: true for an array reference, and true through
Observable (Proxy) wrappers whose underlying target is an array, as
JavaScript's `Array.isArray` pierces proxies.  Takes the heap it reads. -/
def isArrayVal (h : Nat → Option HObj) : JSVal → Nat → Bool
  | JSVal.ref a, fuel + 1 =>
      match h a with
      | some (HObj.arr _) => true
      | some (HObj.observable t _ _) => isArrayVal h t fuel
      | _ => false
  | _, _ => false

/-- Read a field of a JS object field list. -/
def getField : List (String × JSVal) → String → Option JSVal
  | [], _ => none
  | (k', v') :: r, k => if k' = k then some v' else getField r k

/-- Write a field of a JS object field list: existing keys keep their
position, new keys are appended (JS property insertion order). -/
def setField : List (String × JSVal) → String → JSVal → List (String × JSVal)
  | [], k, v => [(k, v)]
  | (k', v') :: r, k, v =>
      if k' = k then (k', v) :: r else (k', v') :: setField r k v

/-- `Object.assign(target, src)` on field lists: copy `src`'s fields onto
`base` left to right. -/
def mergeFields (base : List (String × JSVal)) : List (String × JSVal) → List (String × JSVal)
  | [] => base
  | (k, v) :: r => mergeFields (setField base k v) r

/-- The loop body of `makeArraysObservable` (source lines 153-166): walk the
data object's fields and replace every array-valued one by a fresh
Observable wrapper owned by `owner`, carrying the array-observable
callbacks. -/
def wrapFields (owner : Nat) : List (String × JSVal) → World → List (String × JSVal) × World
  | [], w => ([], w)
  | (k, v) :: rest, w =>
      if isArrayVal w.heap v chainFuel then
        let p := w.alloc (HObj.observable v ObsKind.arrayObs owner)
        let q := wrapFields owner rest p.1
        ((k, JSVal.ref p.2) :: q.1, q.2)
      else
        let q := wrapFields owner rest w
        ((k, v) :: q.1, q.2)

/-- `makeArraysObservable` (source lines 153-166): mutates the caller's data
object in place, field by field. -/
def makeArraysObservable (owner : Nat) (dataAddr : Nat) (w : World) : World :=
  match w.heap dataAddr with
  | some (HObj.obj fl) =>
      let q := wrapFields owner fl w
      q.2.setHeap dataAddr (HObj.obj q.1)
  | _ => w

/-- Modelled from the spec: `checkWasChanged` (spec section 4.3; the MPart
module is not under src): sets `dirty = (candidate !== lastValue)` and, if
dirty, updates `lastValue` to the candidate. -/
def checkWasChanged (p : MPart) (v : JSVal) : MPart :=
  if v ≠ p.lastValue then { lastValue := v, dirty := true }
  else { p with dirty := false }

/-- Modelled from the spec: `createParts` of a TemplateResult (spec section
6) creates one MPart per binding point, with nothing committed yet. -/
def mkParts (n : Nat) : List MPart :=
  List.replicate n { lastValue := JSVal.undef, dirty := false }

/-- The loop of `Mosaic.prototype.repaint` (source lines 113-119): for each
MPart in index order, apply `checkWasChanged` to `values[i]` (JavaScript
indexing past the end yields `undefined`), and collect the indices whose
MPart is committed (`commit` is skipped exactly when `dirty === false`).
Returns the updated MPart list and the committed indices. -/
def repaintLoop : List MPart → List JSVal → Nat → List MPart × List Nat
  | [], _, _ => ([], [])
  | p :: ps, vs, i =>
      let p' := checkWasChanged p (vs.headD JSVal.undef)
      let rest := repaintLoop ps vs.tail (i + 1)
      (p' :: rest.1, if p'.dirty then i :: rest.2 else rest.2)

/-- `Mosaic.prototype.repaint` as a whole pass starting at index 0. -/
def repaintBody (ps : List MPart) (vs : List JSVal) : List MPart × List Nat :=
  repaintLoop ps vs 0

/-- `Mosaic.prototype.repaint` (source lines 111-120) on a registered
component: logs the repaint, runs the dirty-check/commit loop over
`this.parts` and `this.values`, logs each commit, and stores the updated
Parts.  Accessing `this.parts.length` or `this.values[i]` while the field
is `undefined` raises a TypeError, as in JavaScript. -/
def repaintRun (w : World) (cid : Nat) : World × Except JSError Unit :=
  match w.comps cid with
  | none => (w, Except.error JSError.typeErr)
  | some c =>
      let w1 := w.logE Event.repaintCall
      match c.partsArr with
      | none => (w1, Except.error JSError.typeErr)
      | some (pid, ps) =>
          match c.values with
          | none =>
              if ps.isEmpty then (w1, Except.ok ())
              else (w1, Except.error JSError.typeErr)
          | some vs =>
              let r := repaintBody ps vs
              let w2 := w1.updateComp cid
                (fun cc => { cc with partsArr := some (pid, r.1) })
              let w3 := { w2 with log := w2.log ++ r.2.map Event.commitPart }
              (w3, Except.ok ())

/-- Modelled from the spec: `isHTMLElement` (src/validations is not under
src): an address is an HTML element when it refers to a DOM node flagged as
one; a DocumentFragment or any non-node value is not. -/
def isHTMLElementAddr (w : World) (a : Nat) : Bool :=
  match w.heap a with
  | some (HObj.domNode h _) => h
  | _ => false

/-- `document.contains(this.element)`: membership in the document's node
set; `contains` of an absent element is false. -/
def docContains (w : World) (e : Option Nat) : Bool :=
  match e with
  | some a => w.docNodes.contains a
  | none => false

/-- The `paint` precondition `this.element && isHTMLElement(this.element)`
(source line 88). -/
def validElem (w : World) (e : Option Nat) : Bool :=
  match e with
  | some a => isHTMLElementAddr w a
  | none => false

/-- Snapshot of an Observable target for the before-change callback: the
fields of the wrapped data object (empty for non-object targets). -/
def snapOf (w : World) : JSVal → List (String × JSVal)
  | JSVal.ref a =>
      match w.heap a with
      | some (HObj.obj fl) => fl
      | _ => []
  | _ => []

/-- The before-change callback pair attached to Observables by the Mosaic
constructor and by `makeArraysObservable`.  The data observable
(source lines 59-61) runs `if (this.willUpdate) this.willUpdate(oldData)`
with the pre-mutation snapshot.  The array observable (source lines
158-159) runs `if (this.willUpdate) this.willUpdate(oldData)` where
`oldData` is not bound in any enclosing scope, so entering the branch
raises a ReferenceError. -/
def fireBefore (w : World) (kind : ObsKind) (owner : Nat)
    (snap : List (String × JSVal)) : World × Except JSError Unit :=
  match w.comps owner with
  | none => (w, Except.ok ())
  | some c =>
      match kind with
      | ObsKind.dataObs =>
          if c.willUpdateHook then (w.logE (Event.willUpdateCall snap), Except.ok ())
          else (w, Except.ok ())
      | ObsKind.arrayObs =>
          if c.willUpdateHook then (w, Except.error (JSError.refErr "oldData"))
          else (w, Except.ok ())

/-- The after-change callback pair.  The data observable (source lines
61-64) runs `this.repaint(); if (this.updated) this.updated(this.data,
this.actions)`.  The array observable (source lines 160-163) runs
`this.repaint(); if (this.updated) this.updated()` with no arguments. -/
def fireAfter (w : World) (kind : ObsKind) (owner : Nat) :
    World × Except JSError Unit :=
  match w.comps owner with
  | none => (w, Except.ok ())
  | some c =>
      let r := repaintRun w owner
      match r.2 with
      | Except.error e => (r.1, Except.error e)
      | Except.ok _ =>
          match kind with
          | ObsKind.dataObs =>
              if c.updatedHook then
                (r.1.logE (Event.updatedCall [JSVal.ref c.dataAddr, c.actions]),
                 Except.ok ())
              else (r.1, Except.ok ())
          | ObsKind.arrayObs =>
              if c.updatedHook then
                (r.1.logE (Event.updatedCall []), Except.ok ())
              else (r.1, Except.ok ())

/-- Modelled from the spec: a property assignment through an Observable
wrapper (spec section 4.1; src/observable is not under src): capture the
pre-mutation snapshot, apply the mutation to the wrapped object, invoke
the before-change callback with the snapshot, then the after-change
callback. -/
def obsSetProp (w : World) (obsAddr : Nat) (k : String) (v : JSVal) :
    World × Except JSError Unit :=
  match w.heap obsAddr with
  | some (HObj.observable (JSVal.ref d) kind owner) =>
      match w.heap d with
      | some (HObj.obj fl) =>
          let w1 := w.setHeap d (HObj.obj (setField fl k v))
          let r2 := fireBefore w1 kind owner fl
          match r2.2 with
          | Except.error e => (r2.1, Except.error e)
          | Except.ok _ => fireAfter r2.1 kind owner
      | _ => (w, Except.error JSError.typeErr)
  | _ => (w, Except.error JSError.typeErr)

/-- Modelled from the spec: a mutating `push` applied to a value (spec
section 4.1).  Pushing on a plain array appends; pushing on an Observable
wrapper captures the snapshot, applies the push through the wrapped target
(so a wrapper around another wrapper forwards inward, running the inner
cycle too, as a Proxy set does), then fires the before- and after-change
callbacks of this wrapper. -/
def pushVal (w : World) (target : JSVal) (x : JSVal) : Nat → World × Except JSError Unit
  | 0 => (w, Except.error JSError.typeErr)
  | fuel + 1 =>
      match target with
      | JSVal.ref a =>
          match w.heap a with
          | some (HObj.arr xs) => (w.setHeap a (HObj.arr (xs ++ [x])), Except.ok ())
          | some (HObj.observable t kind owner) =>
              let snap := snapOf w t
              let r1 := pushVal w t x fuel
              match r1.2 with
              | Except.error e => (r1.1, Except.error e)
              | Except.ok _ =>
                  let r2 := fireBefore r1.1 kind owner snap
                  match r2.2 with
                  | Except.error e => (r2.1, Except.error e)
                  | Except.ok _ => fireAfter r2.1 kind owner
          | _ => (w, Except.error JSError.typeErr)
      | _ => (w, Except.error JSError.typeErr)

/-- `component.data.k = v`: a scalar property assignment on a component's
reactive data, going through the data Observable's set interception. -/
def setDataProp (w : World) (cid : Nat) (k : String) (v : JSVal) :
    World × Except JSError Unit :=
  match w.comps cid with
  | some c => obsSetProp w c.dataAddr k v
  | none => (w, Except.error JSError.typeErr)

/-- `component.data.k.push(x)`: read the field `k` through the data
Observable (reads are transparent passthrough) and push on the value found
there. -/
def pushDataArr (w : World) (cid : Nat) (k : String) (x : JSVal) :
    World × Except JSError Unit :=
  match w.comps cid with
  | some c =>
      match w.heap c.dataAddr with
      | some (HObj.observable (JSVal.ref d) _ _) =>
          match w.heap d with
          | some (HObj.obj fl) =>
              match getField fl k with
              | some tv => pushVal w tv x chainFuel
              | none => (w, Except.error JSError.typeErr)
          | _ => (w, Except.error JSError.typeErr)
      | _ => (w, Except.error JSError.typeErr)
  | none => (w, Except.error JSError.typeErr)

/-- Modelled from the spec: invoking the component's view function
`this.view(this.data, this.actions)` (spec section 6): an opaque producer
that builds a fresh template DOM fragment and computes the values matrix
from the data the component holds.  The invocation is logged, tagged with
the invoking component's type id. -/
def viewApply (w : World) (vs : ViewSpec) (tid : String)
    (dataFields : List (String × JSVal)) : World × Template :=
  let p := w.alloc (HObj.domNode false [])
  let w2 := p.1.logE (Event.viewInvoked tid)
  (w2, { contentAddr := p.2, matrix := vs.compute dataFields, numParts := vs.numParts })

/-- The tail of the `Mosaic` constructor (source lines 70-83): the
`if (!TemplateTable[this.tid])` block followed by registering the
component.  `w` is the world after the data Observable was built, `cid`
the instance being constructed, `dAddr` the data object's address, and
`base` the component record assembled so far. -/
def ctorBranch (w : World) (o : Options) (cid : Nat) (tid : String) (dAddr : Nat)
    (base : MosaicC) : World × Nat :=
  match w.table tid with
  | some _ =>
      ({ w with comps := fun j => if j = cid then some base else w.comps j,
                nextCid := cid + 1 }, cid)
  | none =>
      let fl :=
        match w.heap dAddr with
        | some (HObj.obj l) => l
        | _ => []
      let tv := viewApply w o.viewSpec tid fl
      let w5 := tv.1
      let tmpl := tv.2
      let pidp := w5.allocId
      let w6 := pidp.1.logE (Event.partsCreated tid)
      let ps := mkParts o.viewSpec.numParts
      let vals := tmpl.matrix.head?
      let w7 := { w6 with table := fun t => if t = tid then some tmpl else w6.table t }
      let ew : Option Nat × World :=
        if docContains w7 o.element then (o.element, w7)
        else
          let co :=
            match w7.heap tmpl.contentAddr with
            | some (HObj.domNode h ch) => HObj.domNode h ch
            | _ => HObj.domNode false []
          let q := w7.alloc co
          (some q.2, q.1)
      let c : MosaicC :=
        { base with element := ew.1, partsArr := some (pidp.2, ps), values := vals }
      ({ ew.2 with comps := fun j => if j = cid then some c else ew.2.comps j,
                   nextCid := cid + 1 }, cid)

/-- The `Mosaic` constructor (source lines 45-84).  `findInvalidOptions`
(src/validations, not under src) is modelled as always passing: the Lean
`Options` record is well-typed by construction, and no claim concerns the
ConfigurationError path.  Steps, in source order: assign `tid` (the given
one, or a fresh random key); take the element from the options; wrap the
data's array-valued fields in place via `makeArraysObservable`; wrap the
data (or a fresh empty object when absent) in the data Observable; copy
the options; then, only if the type id is not yet in the TemplateTable,
invoke the view once, create the Parts, take `template.values.slice()[0]`
as the values, store the template, and, if the element is not contained in
the document, replace it by a clone of the template fragment.  An instance
whose type id is already cached gets no `parts` and no `values` fields
(they stay undefined). -/
def mosaicCtor (w0 : World) (o : Options) : World × Nat :=
  let cid := w0.nextCid
  let tw : String × World :=
    match o.tid with
    | some t => (t, w0)
    | none => (mkKey w0.nextKey, { w0 with nextKey := w0.nextKey + 1 })
  let tid := tw.1
  let dw : Nat × World :=
    match o.data with
    | some da => (da, makeArraysObservable cid da tw.2)
    | none =>
        let p := tw.2.alloc (HObj.obj [])
        (p.2, p.1)
  let p2 := dw.2.alloc (HObj.observable (JSVal.ref dw.1) ObsKind.dataObs cid)
  let obsAddr := p2.2
  let base : MosaicC :=
    { tid := tid, iid := none, element := o.element, dataAddr := obsAddr,
      actions := o.actions, viewSpec := o.viewSpec, created := o.created,
      willUpdateHook := o.willUpdateHook, updatedHook := o.updatedHook,
      willDestroy := o.willDestroy, partsArr := none, values := none,
      opts := o }
  ctorBranch p2.1 o cid tid dw.1 base

/-- `Mosaic.prototype.paint` (source lines 87-108): fail with the
precondition error unless `this.element` is a valid HTML element; remove
the element's children; look the template up in the TemplateTable; take
`template.element.content` itself (the variable is named `cloned` in the
source, but no clone is made); swap it in for the element reference;
`repaint`; replace the base node in the document with the new element; and
run the `created` hook. -/
def paint (w : World) (cid : Nat) : World × Except JSError Unit :=
  match w.comps cid with
  | none => (w, Except.error JSError.typeErr)
  | some c =>
      match c.element with
      | none => (w, Except.error JSError.paintPrecond)
      | some e =>
          if isHTMLElementAddr w e then
            let w1 :=
              match w.heap e with
              | some (HObj.domNode h _) => w.setHeap e (HObj.domNode h [])
              | _ => w
            match w1.table c.tid with
            | none => (w1, Except.error JSError.typeErr)
            | some tmpl =>
                let cloned := tmpl.contentAddr
                let w2 := w1.updateComp cid (fun cc => { cc with element := some cloned })
                let r := repaintRun w2 cid
                match r.2 with
                | Except.error err => (r.1, Except.error err)
                | Except.ok _ =>
                    let w4 := { r.1 with
                      docNodes := r.1.docNodes.map (fun a => if a = e then cloned else a) }
                    let w5 := w4.logE (Event.replacedWith e cloned)
                    let w6 := if c.created then w5.logE Event.createdCall else w5
                    (w6, Except.ok ())
          else (w, Except.error JSError.paintPrecond)

/-- `Mosaic.prototype.new` (source lines 122-140): shallow-copy the saved
options; set their data to `Object.assign({}, this.data, newData)` (a
fresh object whose fields are copied by reference through the data
Observable); force the parent's tid; run the constructor; give the copy a
fresh `iid`; set its parts to `this.parts.slice()` (a fresh array holding
the same Parts); clone the current element; invoke the view again on the
copy's data for fresh values, taking `values.slice()[0]`; and repaint the
copy. -/
def mosaicNew (w : World) (cid : Nat) (patch : List (String × JSVal)) :
    World × Except JSError Nat :=
  match w.comps cid with
  | none => (w, Except.error JSError.typeErr)
  | some c =>
      match w.heap c.dataAddr with
      | some (HObj.observable (JSVal.ref d) _ _) =>
          match w.heap d with
          | some (HObj.obj fl) =>
              let p1 := w.alloc (HObj.obj (mergeFields fl patch))
              let o' : Options := { c.opts with data := some p1.2, tid := some c.tid }
              let q := mosaicCtor p1.1 o'
              let w2 := q.1
              let cid' := q.2
              let iidK := mkKey w2.nextKey
              let w3 := { w2 with nextKey := w2.nextKey + 1 }
              match c.partsArr with
              | none => (w3, Except.error JSError.typeErr)
              | some (_, ps) =>
                  let pidp := w3.allocId
                  match c.element with
                  | none => (pidp.1, Except.error JSError.typeErr)
                  | some e =>
                      match pidp.1.heap e with
                      | some (HObj.domNode hb ch) =>
                          let ep := pidp.1.alloc (HObj.domNode hb ch)
                          let fl' :=
                            match ep.1.heap p1.2 with
                            | some (HObj.obj l) => l
                            | _ => []
                          let tv := viewApply ep.1 c.opts.viewSpec c.tid fl'
                          let vals' := tv.2.matrix.head?
                          let w8 := tv.1.updateComp cid'
                            (fun cc => { cc with iid := some iidK,
                                                 partsArr := some (pidp.2, ps),
                                                 element := some ep.2,
                                                 values := vals' })
                          let r := repaintRun w8 cid'
                          match r.2 with
                          | Except.error err => (r.1, Except.error err)
                          | Except.ok _ => (r.1, Except.ok cid')
                      | _ => (pidp.1, Except.error JSError.typeErr)
          | _ => (w, Except.error JSError.typeErr)
      | _ => (w, Except.error JSError.typeErr)

/-- `Mosaic.prototype.equals` (source lines 144-146): strict equality of
`tid` and of `iid`. -/
def mosaicEquals (a b : MosaicC) : Bool :=
  a.tid == b.tid && a.iid == b.iid

/-- Follow a value through Observable wrappers down to the underlying
array, if any: the base storage a nested array mutation lands in. -/
def resolveBaseArr (w : World) : JSVal → Nat → Option (List JSVal)
  | JSVal.ref a, fuel + 1 =>
      match w.heap a with
      | some (HObj.arr xs) => some xs
      | some (HObj.observable t _ _) => resolveBaseArr w t fuel
      | _ => none
  | _, _ => none

/-- Observer: the contents of the array stored at field `k` of a
component's data, read through the data Observable and any nested
wrappers; what `component.data.k` denotes as a plain array. -/
def dataFieldBaseArr (w : World) (cid : Nat) (k : String) : Option (List JSVal) :=
  match w.comps cid with
  | some c =>
      match w.heap c.dataAddr with
      | some (HObj.observable (JSVal.ref d) _ _) =>
          match w.heap d with
          | some (HObj.obj fl) =>
              match getField fl k with
              | some v => resolveBaseArr w v chainFuel
              | none => none
          | _ => none
      | _ => none
  | none => none

/-- Observer: `mosaicEquals` applied to two registered components. -/
def compEquals (w : World) (i j : Nat) : Option Bool :=
  match w.comps i, w.comps j with
  | some a, some b => some (mosaicEquals a b)
  | _, _ => none

/-- The empty initial world. -/
def w0 : World :=
  { heap := fun _ => none, next := 0, comps := fun _ => none, nextCid := 0,
    table := fun _ => none, nextKey := 0, docNodes := [], log := [] }

/-- A two-part view whose first value is the data's `count` field and whose
second is a constant string. -/
def vsA : ViewSpec :=
  { numParts := 2,
    compute := fun d => [[(getField d "count").getD JSVal.undef, JSVal.str "s"]] }

/-- Starting heap for the paint examples: an HTML anchor node with one
child, attached to the document, and a data object. -/
def wP0 : World :=
  { w0 with
    heap := fun a =>
      if a = 0 then some (HObj.domNode true [5])
      else if a = 1 then some (HObj.obj [("count", JSVal.num 1)])
      else none,
    next := 2,
    docNodes := [0] }

/-- Options for the paint examples: explicit tid, anchor in the document. -/
def oP : Options :=
  { tid := some "T", element := some 0, data := some 1, viewSpec := vsA,
    actions := JSVal.str "acts", created := true, willUpdateHook := false,
    updatedHook := false, willDestroy := false }

/-- The world after constructing the paint-example component (cid 0). -/
def wP : World := (mosaicCtor wP0 oP).1

/-- A second component constructed directly with the already-cached type id
"T" (cid 1). -/
def wP2 : World := (mosaicCtor wP oP).1

/-- Starting heap for the hook examples: a data object with a scalar field
and an array-valued field. -/
def wH0 : World :=
  { w0 with
    heap := fun a =>
      if a = 0 then some (HObj.obj [("n", JSVal.num 1), ("todos", JSVal.ref 1)])
      else if a = 1 then some (HObj.arr [JSVal.str "a"])
      else none,
    next := 2 }

/-- A one-part view reading the scalar field `n`. -/
def vsB : ViewSpec :=
  { numParts := 1,
    compute := fun d => [[(getField d "n").getD JSVal.undef]] }

/-- Options for the hook examples: both update hooks installed. -/
def oH : Options :=
  { tid := some "H", element := none, data := some 0, viewSpec := vsB,
    actions := JSVal.str "acts", created := false, willUpdateHook := true,
    updatedHook := true, willDestroy := false }

/-- The hook-example component (cid 0), with `willUpdate` and `updated`. -/
def wH : World := (mosaicCtor wH0 oH).1

/-- Options like `oH` but with no `willUpdate` hook. -/
def oG : Options := { oH with tid := some "G", willUpdateHook := false }

/-- The hook-example component without `willUpdate` (cid 0, fresh world). -/
def wG : World := (mosaicCtor wH0 oG).1

/-- Options for the clone example: scalar `x` plus nested array `todos`,
no hooks, detached element. -/
def oC : Options :=
  { tid := some "C", element := none, data := some 0, viewSpec := vsB,
    actions := JSVal.str "acts", created := false, willUpdateHook := false,
    updatedHook := false, willDestroy := false }

/-- Starting heap for the clone example. -/
def wC0 : World :=
  { w0 with
    heap := fun a =>
      if a = 0 then some (HObj.obj [("x", JSVal.num 1), ("todos", JSVal.ref 1)])
      else if a = 1 then some (HObj.arr [JSVal.str "a"])
      else none,
    next := 2 }

/-- The clone example parent instance (cid 0). -/
def wC : World := (mosaicCtor wC0 oC).1

/-- The clone example after `parent.new({x: 5})` (the copy is cid 1). -/
def wCN : World := (mosaicNew wC 0 [("x", JSVal.num 5)]).1

/-- The clone example after mutating the copy's nested array:
`copy.data.todos.push("b")`. -/
def wCP : World := (pushDataArr wCN 1 "todos" (JSVal.str "b")).1

/-- A value's reference, if any, points below the allocation bound `n`. -/
def valBelow (v : JSVal) (n : Nat) : Bool :=
  match v with
  | JSVal.ref a => decide (a < n)
  | _ => true

/-- Every Observable allocated below `n` in heap `h` has its target
reference below `n` as well, so Observable chains never escape the
allocated region. -/
def obsClosedB (h : Nat → Option HObj) (n : Nat) : Bool :=
  (List.range n).all (fun a =>
    match h a with
    | some (HObj.observable t _ _) => valBelow t n
    | _ => true)

/-- Checker for one field of the claimed `makeArraysObservable` effect:
an array-valued field (judged in the pre-state heap `h`) must now be a
reference to an Observable in the post-state heap `hf` that wraps exactly
the original value and is owned by `cid`; any other field is untouched. -/
def fieldValWrapped (h hf : Nat → Option HObj) (cid : Nat) (v v' : JSVal) : Bool :=
  if isArrayVal h v chainFuel then
    match v' with
    | JSVal.ref a =>
        match hf a with
        | some (HObj.observable t ObsKind.arrayObs own) => t == v && own == cid
        | _ => false
    | _ => false
  else v' == v

/-- Pointwise `fieldValWrapped` over a whole field list, keys preserved in
order. -/
def fieldsWrapped (h hf : Nat → Option HObj) (cid : Nat) :
    List (String × JSVal) → List (String × JSVal) → Bool
  | [], [] => true
  | (k, v) :: r, (k', v') :: r' =>
      k' == k && fieldValWrapped h hf cid v v' && fieldsWrapped h hf cid r r'
  | _, _ => false

/-- Checker for the whole claimed construction effect on the caller's data
object: the object at its original address `da` now holds the original
fields with every array-valued one replaced by an Observable wrapper owned
by `cid`. -/
def wrappedOk (h hf : Nat → Option HObj) (cid da : Nat)
    (fl : List (String × JSVal)) : Bool :=
  match hf da with
  | some (HObj.obj fl') => fieldsWrapped h hf cid fl fl'
  | _ => false

/-- A plain component record used to instantiate component-valued
universals in closed statements. -/
def cZ : MosaicC :=
  { tid := "z", iid := none, element := none, dataAddr := 0,
    actions := JSVal.undef, viewSpec := vsB, created := false,
    willUpdateHook := false, updatedHook := false, willDestroy := false,
    partsArr := none, values := none, opts := oC }

/-- Observer: the identity token of a registered component's Parts array
(`this.parts` as a JavaScript array object), if defined.  Two components
whose tokens differ hold distinct array objects even when the MPart
contents agree. -/
def partsId (w : World) (cid : Nat) : Option Nat :=
  (w.comps cid).bind (fun c => c.partsArr.map Prod.fst)

/-- C1: the claim states that `paint` always swaps in a clone of the cached
template fragment and never the fragment object held by the cache.  The
code does the opposite: `paint` binds `template.element.content` itself
(source line 97), swaps it in as `this.element` and passes it to
`replaceWith`, allocating nothing along the way, so the very fragment
stored in the TemplateTable is inserted into the document.  The code
contradicts its own comment "Clone the template" (source line 94); the
constructor line 79 shows the intended `cloneNode(true)` call. -/
theorem C1_paint_inserts_cached_fragment :
    (paint wP 0).2 = Except.ok () ∧
    (wP.table "T").map Template.contentAddr = some 3 ∧
    Event.replacedWith 0 3 ∈ (paint wP 0).1.log ∧
    ((paint wP 0).1.comps 0).map MosaicC.element = some (some 3) ∧
    (paint wP 0).1.next = wP.next := by
  decide

/-- C2 counterexample: a component constructed directly with a type id that
is already in the TemplateTable (cid 1 in `wP2`) has `parts` and `values`
both undefined, while the cache-populating instance (cid 0) has both set —
refuting the claim that every instance has them defined and aligned at
every point after construction. -/
theorem C2_cached_tid_parts_undefined :
    (wP2.comps 1).map (fun c => (c.partsArr.isNone, c.values.isNone)) =
      some (true, true) ∧
    (wP2.comps 0).map (fun c => (c.partsArr.isNone, c.values.isNone)) =
      some (false, false) := by
  decide

/-- C3 counterexample: after two direct constructions with type id "T" the
view-parsing path did run exactly once, but the second instance's `parts`
field is undefined, not a reference to the identical cached Part sequence
held by the first instance. -/
theorem C3_second_instance_parts_undefined :
    wP2.log.countP (fun e => e == Event.partsCreated "T") = 1 ∧
    (wP2.comps 1).map (fun c => c.partsArr.isNone) = some true ∧
    (wP2.comps 0).map (fun c => c.partsArr.isNone) = some false := by
  decide

/-- C8 counterexample: two distinct directly-constructed instances of type
"T" (cids 0 and 1) both have an undefined `iid`, so `equals` reports them
equal — refuting the claim that every concrete instance carries its own
unique instanceId. -/
theorem C8_direct_instances_equal :
    compEquals wP2 0 1 = some true ∧
    (wP2.comps 0).map MosaicC.iid = some none ∧
    (wP2.comps 1).map MosaicC.iid = some none := by
  decide

/-- C7 counterexample: `new` merges data with a shallow `Object.assign`, so
the copy's `todos` field aliases the parent's underlying array: pushing
"b" through the copy (cid 1) is visible through the parent (cid 0), whose
`data.todos` grows from ["a"] to ["a", "b"]. -/
theorem C7_nested_array_shared :
    dataFieldBaseArr wCN 0 "todos" = some [JSVal.str "a"] ∧
    (mosaicNew wC 0 [("x", JSVal.num 5)]).2 = Except.ok 1 ∧
    (pushDataArr wCN 1 "todos" (JSVal.str "b")).2 = Except.ok () ∧
    dataFieldBaseArr wCP 0 "todos" = some [JSVal.str "a", JSVal.str "b"] := by
  decide

/-- C6: the claim states a nested array mutation triggers the same hook
sequence with the same arguments as a scalar mutation.  On the component
`wH` (both hooks installed), a scalar assignment runs
willUpdate(snapshot) / repaint / updated(data, actions); the nested
`data.todos.push("b")` instead raises ReferenceError on the unbound
identifier `oldData` in the array observable's before-callback (source
line 159).  With no `willUpdate` hook (`wG`) the push completes but calls
`updated()` with no arguments (source line 162), while the scalar path
passes `(this.data, this.actions)` — so neither the sequence nor the
arguments match; the scalar path is plainly the intent and line 159's
unbound `oldData` a slip. -/
theorem C6_nested_array_hooks_diverge :
    ((setDataProp wH 0 "n" (JSVal.num 2)).2 = Except.ok () ∧
     (setDataProp wH 0 "n" (JSVal.num 2)).1.log =
       wH.log ++ [Event.willUpdateCall [("n", JSVal.num 1), ("todos", JSVal.ref 2)],
                  Event.repaintCall, Event.commitPart 0,
                  Event.updatedCall [JSVal.ref 3, JSVal.str "acts"]]) ∧
    (pushDataArr wH 0 "todos" (JSVal.str "b")).2 =
      Except.error (JSError.refErr "oldData") ∧
    ((pushDataArr wG 0 "todos" (JSVal.str "b")).2 = Except.ok () ∧
     (pushDataArr wG 0 "todos" (JSVal.str "b")).1.log =
       wG.log ++ [Event.repaintCall, Event.commitPart 0, Event.updatedCall []]) ∧
    (setDataProp wG 0 "n" (JSVal.num 2)).1.log =
      wG.log ++ [Event.repaintCall, Event.commitPart 0,
                 Event.updatedCall [JSVal.ref 3, JSVal.str "acts"]] := by
  decide

/-- The committed value recorded by a dirty check is always the candidate,
so checking the same candidate again is never dirty. -/
theorem checkWasChanged_idem (p : MPart) (v : JSVal) :
    (checkWasChanged (checkWasChanged p v) v).dirty = false := by
  unfold checkWasChanged
  by_cases h : v = p.lastValue <;> simp [h]

/-- The Parts produced by one repaint pass: each Part in index order with
`checkWasChanged` applied to its value. -/
theorem repaintLoop_fst (ps : List MPart) :
    ∀ (vs : List JSVal) (i : Nat),
      (repaintLoop ps vs i).1 =
        ps.mapIdx (fun j p => checkWasChanged p (vs.getD j JSVal.undef)) := by
  induction ps with
  | nil => intro vs i; simp [repaintLoop]
  | cons p ps ih =>
      intro vs i
      have h0 : vs.headD JSVal.undef = vs.getD 0 JSVal.undef := by
        cases vs <;> rfl
      have h1 : (fun j (q : MPart) => checkWasChanged q (vs.tail.getD j JSVal.undef))
              = (fun j (q : MPart) => checkWasChanged q (vs.getD (j + 1) JSVal.undef)) := by
        funext j q
        congr 1
        cases vs <;> rfl
      simp only [repaintLoop, List.mapIdx_cons, ih vs.tail (i + 1), h0, h1]

/-- The commit indices produced by one repaint pass starting at offset
`i`: the in-bounds indices whose dirty check comes out true, in index
order, shifted by the offset. -/
theorem repaintLoop_snd (ps : List MPart) :
    ∀ (vs : List JSVal) (i : Nat),
      (repaintLoop ps vs i).2 =
        ((List.range ps.length).filter
          (fun j => (checkWasChanged (ps.getD j default) (vs.getD j JSVal.undef)).dirty)).map
          (fun j => j + i) := by
  induction ps with
  | nil => intro vs i; simp [repaintLoop]
  | cons p ps ih =>
      intro vs i
      have h0 : vs.headD JSVal.undef = vs.getD 0 JSVal.undef := by
        cases vs <;> rfl
      have hg : ((fun j => (checkWasChanged ((p :: ps).getD j default)
                  (vs.getD j JSVal.undef)).dirty) ∘ Nat.succ)
              = (fun j => (checkWasChanged (ps.getD j default)
                  (vs.tail.getD j JSVal.undef)).dirty) := by
        funext j
        simp only [Function.comp, List.getD_cons_succ]
        congr 2
        cases vs <;> rfl
      have hadd : ((fun j => j + i) ∘ Nat.succ) = (fun j => j + (i + 1)) := by
        funext j
        simp only [Function.comp, Nat.succ_eq_add_one]
        omega
      simp only [repaintLoop, List.length_cons, List.range_succ_eq_map,
        List.filter_cons, List.filter_map, hg, h0, ih vs.tail (i + 1),
        List.getD_cons_zero, apply_ite (List.map (fun j => j + i)),
        List.map_cons, List.map_map, hadd, Nat.zero_add]

/-- A full pass leaves every Part's `lastValue` equal to its candidate
value, so an immediately repeated pass over the same values marks nothing
dirty and commits nothing. -/
theorem repaintLoop_twice (ps : List MPart) :
    ∀ (vs : List JSVal) (i i' : Nat),
      (repaintLoop (repaintLoop ps vs i).1 vs i').2 = [] := by
  induction ps with
  | nil => intro vs i i'; simp [repaintLoop]
  | cons p ps ih =>
      intro vs i i'
      simp only [repaintLoop, checkWasChanged_idem, Bool.false_eq_true, if_false]
      exact ih vs.tail (i + 1) (i' + 1)

/-- C4: in a repaint pass, every Part in index order has `checkWasChanged`
applied to its current value (`values[i]`, `undefined` past the end); the
committed indices are exactly the in-bounds indices whose Part is dirty
after the check, in index order; and a second pass over the unchanged
values array commits nothing.  `repaintBody` is the loop of
`Mosaic.prototype.repaint` (source lines 113-119), which `repaintRun`
wraps for a registered component. -/
theorem C4_repaint_checks_then_commits_iff_dirty (ps : List MPart) (vs : List JSVal) :
    (repaintBody ps vs).1 =
      ps.mapIdx (fun i p => checkWasChanged p (vs.getD i JSVal.undef)) ∧
    (repaintBody ps vs).2 =
      (List.range ps.length).filter
        (fun i => (checkWasChanged (ps.getD i default) (vs.getD i JSVal.undef)).dirty) ∧
    (repaintBody (repaintBody ps vs).1 vs).2 = [] := by
  refine ⟨repaintLoop_fst ps vs 0, ?_, repaintLoop_twice ps vs 0 0⟩
  rw [repaintBody, repaintLoop_snd]
  simp

/-- `repaint` never raises the paint precondition error: its only failures
are TypeErrors from undefined `parts` or `values`. -/
theorem repaintRun_no_precond (w : World) (cid : Nat) :
    (repaintRun w cid).2 ≠ Except.error JSError.paintPrecond := by
  unfold repaintRun
  split
  · simp
  · split
    · simp
    · split
      · split <;> simp
      · simp

/-- C9: if a registered component's element is absent or not a valid HTML
element, `paint` fails with the precondition error and returns the world
unchanged (no child is removed, no Part committed, nothing logged); if the
element is valid, the precondition error is never raised. -/
theorem C9_paint_requires_valid_element (w : World) (cid : Nat)
    {el : Option Nat} (h : (w.comps cid).map MosaicC.element = some el) :
    (validElem w el = false →
      paint w cid = (w, Except.error JSError.paintPrecond)) ∧
    (validElem w el = true →
      (paint w cid).2 ≠ Except.error JSError.paintPrecond) := by
  rcases hc : w.comps cid with _ | c
  · rw [hc] at h; exact absurd h (by simp)
  · rw [hc] at h
    have hel : c.element = el := by simpa using h
    subst hel
    constructor
    · intro hv
      rcases he : c.element with _ | e
      · simp only [paint, hc, he]
      · have hh : isHTMLElementAddr w e = false := by
          simpa [validElem, he] using hv
        simp only [paint, hc, he, hh, Bool.false_eq_true, if_false]
    · intro hv
      rcases he : c.element with _ | e
      · rw [he] at hv; simp [validElem] at hv
      · have hh : isHTMLElementAddr w e = true := by
          rw [he] at hv; simpa [validElem] using hv
        simp only [paint, hc, he, hh, if_true]
        split
        · simp
        · split
          · rename_i err heq
            intro hE
            have : err = JSError.paintPrecond := by
              simpa using hE
            rw [this] at heq
            exact repaintRun_no_precond _ _ heq
          · simp

/-- Closed instance of the paint precondition theorem: the clone-example
component's element is a detached DocumentFragment clone (address 6), not
an HTML element, so painting it fails with the precondition error and
returns the world unchanged. -/
theorem C9_paint_requires_valid_element_witness :
    (validElem wC (some 6) = false →
      paint wC 0 = (wC, Except.error JSError.paintPrecond)) ∧
    (validElem wC (some 6) = true →
      (paint wC 0).2 ≠ Except.error JSError.paintPrecond) :=
  C9_paint_requires_valid_element wC 0 rfl

/-- C5: a single scalar property assignment on a component's data (with
both update hooks installed) runs exactly one `willUpdate` call carrying
the pre-mutation snapshot, then exactly one `repaint`, then exactly one
`updated` call carrying `(this.data, this.actions)`, in that order; the
only other events are the repaint's own Part commits, and the assignment
completes without error. -/
theorem C5_scalar_mutation_hook_cycle (w : World) (cid : Nat)
    (k : String) (v : JSVal) {c : MosaicC} {d pid : Nat}
    {fl : List (String × JSVal)} {ps : List MPart} {vs : List JSVal}
    (hc : w.comps cid = some c)
    (hobs : w.heap c.dataAddr = some (HObj.observable (JSVal.ref d) ObsKind.dataObs cid))
    (hd : w.heap d = some (HObj.obj fl))
    (hwu : c.willUpdateHook = true)
    (hup : c.updatedHook = true)
    (hparts : c.partsArr = some (pid, ps))
    (hvals : c.values = some vs) :
    (setDataProp w cid k v).2 = Except.ok () ∧
    (setDataProp w cid k v).1.log =
      w.log ++ [Event.willUpdateCall fl, Event.repaintCall]
            ++ (repaintBody ps vs).2.map Event.commitPart
            ++ [Event.updatedCall [JSVal.ref c.dataAddr, c.actions]] := by
  have hcomps1 : (w.setHeap d (HObj.obj (setField fl k v))).comps cid = some c := by
    simp [World.setHeap, hc]
  simp only [setDataProp, hc, obsSetProp, hobs, hd, fireBefore, hcomps1, hwu,
    if_true, fireAfter, World.logE, World.setHeap, hc, repaintRun, hparts, hvals,
    World.updateComp, hup]
  simp [List.append_assoc]

/-- Closed instance of the scalar-mutation hook cycle on the hook-example
component: setting `data.n = 2` logs willUpdate(snapshot), repaint, the
initial commit of Part 0, then updated(data, actions). -/
theorem C5_scalar_mutation_hook_cycle_witness :
    (setDataProp wH 0 "n" (JSVal.num 2)).2 = Except.ok () ∧
    (setDataProp wH 0 "n" (JSVal.num 2)).1.log =
      wH.log ++ [Event.willUpdateCall [("n", JSVal.num 1), ("todos", JSVal.ref 2)],
                 Event.repaintCall]
            ++ (repaintBody (mkParts 1) [JSVal.num 1]).2.map Event.commitPart
            ++ [Event.updatedCall [JSVal.ref 3, JSVal.str "acts"]] :=
  C5_scalar_mutation_hook_cycle wH 0 "n" (JSVal.num 2) rfl rfl rfl rfl rfl rfl rfl

namespace World

@[simp] theorem alloc_comps (w : World) (o : HObj) : (w.alloc o).1.comps = w.comps := rfl
@[simp] theorem alloc_table (w : World) (o : HObj) : (w.alloc o).1.table = w.table := rfl
@[simp] theorem alloc_log (w : World) (o : HObj) : (w.alloc o).1.log = w.log := rfl
@[simp] theorem alloc_nextKey (w : World) (o : HObj) : (w.alloc o).1.nextKey = w.nextKey := rfl
@[simp] theorem alloc_nextCid (w : World) (o : HObj) : (w.alloc o).1.nextCid = w.nextCid := rfl
@[simp] theorem alloc_docNodes (w : World) (o : HObj) : (w.alloc o).1.docNodes = w.docNodes := rfl
@[simp] theorem alloc_next (w : World) (o : HObj) : (w.alloc o).1.next = w.next + 1 := rfl
@[simp] theorem alloc_snd (w : World) (o : HObj) : (w.alloc o).2 = w.next := rfl

theorem alloc_heap_lt (w : World) (o : HObj) (a : Nat) (h : a < w.next) :
    (w.alloc o).1.heap a = w.heap a := by
  simp only [alloc]
  rw [if_neg (by omega)]

@[simp] theorem alloc_heap_at (w : World) (o : HObj) :
    (w.alloc o).1.heap w.next = some o := by
  simp [alloc]

theorem alloc_heap (w : World) (o : HObj) (a : Nat) :
    (w.alloc o).1.heap a = if a = w.next then some o else w.heap a := rfl

@[simp] theorem allocId_comps (w : World) : (w.allocId).1.comps = w.comps := rfl
@[simp] theorem allocId_table (w : World) : (w.allocId).1.table = w.table := rfl
@[simp] theorem allocId_log (w : World) : (w.allocId).1.log = w.log := rfl
@[simp] theorem allocId_nextKey (w : World) : (w.allocId).1.nextKey = w.nextKey := rfl
@[simp] theorem allocId_nextCid (w : World) : (w.allocId).1.nextCid = w.nextCid := rfl
@[simp] theorem allocId_docNodes (w : World) : (w.allocId).1.docNodes = w.docNodes := rfl
@[simp] theorem allocId_next (w : World) : (w.allocId).1.next = w.next + 1 := rfl
@[simp] theorem allocId_heap (w : World) : (w.allocId).1.heap = w.heap := rfl
@[simp] theorem allocId_snd (w : World) : (w.allocId).2 = w.next := rfl

@[simp] theorem setHeap_comps (w : World) (a : Nat) (o : HObj) : (w.setHeap a o).comps = w.comps := rfl
@[simp] theorem setHeap_table (w : World) (a : Nat) (o : HObj) : (w.setHeap a o).table = w.table := rfl
@[simp] theorem setHeap_log (w : World) (a : Nat) (o : HObj) : (w.setHeap a o).log = w.log := rfl
@[simp] theorem setHeap_nextKey (w : World) (a : Nat) (o : HObj) : (w.setHeap a o).nextKey = w.nextKey := rfl
@[simp] theorem setHeap_nextCid (w : World) (a : Nat) (o : HObj) : (w.setHeap a o).nextCid = w.nextCid := rfl
@[simp] theorem setHeap_docNodes (w : World) (a : Nat) (o : HObj) : (w.setHeap a o).docNodes = w.docNodes := rfl
@[simp] theorem setHeap_next (w : World) (a : Nat) (o : HObj) : (w.setHeap a o).next = w.next := rfl

@[simp] theorem setHeap_heap_at (w : World) (a : Nat) (o : HObj) :
    (w.setHeap a o).heap a = some o := by simp [setHeap]

theorem setHeap_heap_ne (w : World) (a : Nat) (o : HObj) (b : Nat) (h : b ≠ a) :
    (w.setHeap a o).heap b = w.heap b := by simp [setHeap, h]

@[simp] theorem logE_comps (w : World) (e : Event) : (w.logE e).comps = w.comps := rfl
@[simp] theorem logE_table (w : World) (e : Event) : (w.logE e).table = w.table := rfl
@[simp] theorem logE_heap (w : World) (e : Event) : (w.logE e).heap = w.heap := rfl
@[simp] theorem logE_next (w : World) (e : Event) : (w.logE e).next = w.next := rfl
@[simp] theorem logE_nextKey (w : World) (e : Event) : (w.logE e).nextKey = w.nextKey := rfl
@[simp] theorem logE_nextCid (w : World) (e : Event) : (w.logE e).nextCid = w.nextCid := rfl
@[simp] theorem logE_docNodes (w : World) (e : Event) : (w.logE e).docNodes = w.docNodes := rfl
@[simp] theorem logE_log (w : World) (e : Event) : (w.logE e).log = w.log ++ [e] := rfl

@[simp] theorem updateComp_heap (w : World) (i : Nat) (f : MosaicC → MosaicC) :
    (w.updateComp i f).heap = w.heap := by unfold updateComp; split <;> rfl
@[simp] theorem updateComp_next (w : World) (i : Nat) (f : MosaicC → MosaicC) :
    (w.updateComp i f).next = w.next := by unfold updateComp; split <;> rfl
@[simp] theorem updateComp_table (w : World) (i : Nat) (f : MosaicC → MosaicC) :
    (w.updateComp i f).table = w.table := by unfold updateComp; split <;> rfl
@[simp] theorem updateComp_nextKey (w : World) (i : Nat) (f : MosaicC → MosaicC) :
    (w.updateComp i f).nextKey = w.nextKey := by unfold updateComp; split <;> rfl
@[simp] theorem updateComp_nextCid (w : World) (i : Nat) (f : MosaicC → MosaicC) :
    (w.updateComp i f).nextCid = w.nextCid := by unfold updateComp; split <;> rfl
@[simp] theorem updateComp_docNodes (w : World) (i : Nat) (f : MosaicC → MosaicC) :
    (w.updateComp i f).docNodes = w.docNodes := by unfold updateComp; split <;> rfl
@[simp] theorem updateComp_log (w : World) (i : Nat) (f : MosaicC → MosaicC) :
    (w.updateComp i f).log = w.log := by unfold updateComp; split <;> rfl

theorem updateComp_comps_at (w : World) (i : Nat) (f : MosaicC → MosaicC) (c : MosaicC)
    (h : w.comps i = some c) : (w.updateComp i f).comps i = some (f c) := by
  unfold updateComp
  rw [h]
  simp

theorem updateComp_comps_ne (w : World) (i : Nat) (f : MosaicC → MosaicC) (j : Nat)
    (h : j ≠ i) : (w.updateComp i f).comps j = w.comps j := by
  unfold updateComp
  split <;> simp [h]

end World

/-- `wrapFields` only allocates: every world component other than the heap
and the allocation pointer is untouched, and the pointer never
decreases. -/
theorem wrapFields_frame (owner : Nat) (fl : List (String × JSVal)) :
    ∀ w : World,
      (wrapFields owner fl w).2.comps = w.comps ∧
      (wrapFields owner fl w).2.table = w.table ∧
      (wrapFields owner fl w).2.log = w.log ∧
      (wrapFields owner fl w).2.nextKey = w.nextKey ∧
      (wrapFields owner fl w).2.nextCid = w.nextCid ∧
      (wrapFields owner fl w).2.docNodes = w.docNodes ∧
      w.next ≤ (wrapFields owner fl w).2.next := by
  induction fl with
  | nil => intro w; simp [wrapFields]
  | cons p r ih =>
      intro w
      obtain ⟨k, v⟩ := p
      by_cases hv : isArrayVal w.heap v chainFuel = true
      · obtain ⟨h1, h2, h3, h4, h5, h6, h7⟩ :=
          ih (w.alloc (HObj.observable v ObsKind.arrayObs owner)).1
        simp only [wrapFields, hv, if_true, h1, h2, h3, h4, h5, h6,
          World.alloc_comps, World.alloc_table, World.alloc_log,
          World.alloc_nextKey, World.alloc_nextCid, World.alloc_docNodes]
        refine ⟨trivial, trivial, trivial, trivial, trivial, trivial, ?_⟩
        simp only [World.alloc_next] at h7
        omega
      · obtain ⟨h1, h2, h3, h4, h5, h6, h7⟩ := ih w
        simp only [wrapFields, hv, if_false, Bool.false_eq_true]
        exact ⟨h1, h2, h3, h4, h5, h6, h7⟩

/-- `wrapFields` writes nothing below the starting allocation pointer. -/
theorem wrapFields_heap_lt (owner : Nat) (fl : List (String × JSVal)) :
    ∀ (w : World) (a : Nat), a < w.next →
      (wrapFields owner fl w).2.heap a = w.heap a := by
  induction fl with
  | nil => intro w a _; simp [wrapFields]
  | cons p r ih =>
      intro w a ha
      obtain ⟨k, v⟩ := p
      by_cases hv : isArrayVal w.heap v chainFuel = true
      · simp only [wrapFields, hv, if_true]
        rw [ih _ a (by first | omega | (simp; omega) | simp)]
        exact World.alloc_heap_lt w _ a ha
      · simp only [wrapFields, hv, if_false, Bool.false_eq_true]
        exact ih w a ha

/-- Unpacking `obsClosedB`: each Observable below the bound has its target
below the bound. -/
theorem obsClosedB_spec (h : Nat → Option HObj) (n : Nat) (hc : obsClosedB h n = true) :
    ∀ a t k o, a < n → h a = some (HObj.observable t k o) → valBelow t n = true := by
  intro a t k o ha hh
  have := List.all_eq_true.mp hc a (List.mem_range.mpr ha)
  rw [hh] at this
  exact this

/-- `valBelow` is monotone in the bound. -/
theorem valBelow_mono (v : JSVal) (n m : Nat) (hnm : n ≤ m) (h : valBelow v n = true) :
    valBelow v m = true := by
  cases v with
  | ref a => simp [valBelow] at h ⊢; omega
  | undef => rfl
  | null => rfl
  | bool b => rfl
  | num i => rfl
  | str s => rfl

/-- `Array.isArray` only inspects the heap below the allocation bound, so
it is stable under heap extension. -/
theorem isArrayVal_stable (h h' : Nat → Option HObj) (n : Nat)
    (hagree : ∀ a, a < n → h' a = h a) (hclosed : obsClosedB h n = true) :
    ∀ (fuel : Nat) (v : JSVal), valBelow v n = true →
      isArrayVal h' v fuel = isArrayVal h v fuel := by
  intro fuel
  induction fuel with
  | zero => intro v _; cases v <;> rfl
  | succ f ih =>
      intro v hv
      cases v with
      | ref a =>
          have ha : a < n := by simpa [valBelow] using hv
          simp only [isArrayVal, hagree a ha]
          cases hh : h a with
          | none => rfl
          | some o =>
              cases o with
              | obj fields => rfl
              | arr elems => rfl
              | observable t k ow =>
                  exact ih t (obsClosedB_spec h n hclosed a t k ow ha hh)
              | domNode b ch => rfl
      | undef => rfl
      | null => rfl
      | bool b => rfl
      | num i => rfl
      | str s => rfl

/-- Extending a closed heap by one allocation whose Observable target (if
it is one) stays in bounds keeps it closed. -/
theorem obsClosedB_extend (h h' : Nat → Option HObj) (n : Nat)
    (hagree : ∀ a, a < n → h' a = h a)
    (hnew : ∀ t k o, h' n = some (HObj.observable t k o) → valBelow t (n + 1) = true)
    (hc : obsClosedB h n = true) : obsClosedB h' (n + 1) = true := by
  rw [obsClosedB, List.all_eq_true]
  intro a hmem
  have ha : a < n + 1 := List.mem_range.mp hmem
  by_cases h0 : a < n
  · rw [hagree a h0]
    cases hh : h a with
    | none => rfl
    | some o =>
        cases o with
        | obj fields => rfl
        | arr elems => rfl
        | observable t k ow =>
            exact valBelow_mono t n (n + 1) (by omega)
              (obsClosedB_spec h n hc a t k ow h0 hh)
        | domNode b ch => rfl
  · have haeq : a = n := by omega
    subst haeq
    cases hh : h' a with
    | none => rfl
    | some o =>
        cases o with
        | obj fields => rfl
        | arr elems => rfl
        | observable t k ow => exact hnew t k ow hh
        | domNode b ch => rfl

/-- `fieldsWrapped` only depends on its pre-state heap through
`Array.isArray` of the original values. -/
theorem fieldsWrapped_congr (h1 h2 hf : Nat → Option HObj) (cid : Nat) :
    ∀ (r fl' : List (String × JSVal)),
      (∀ p ∈ r, isArrayVal h1 p.2 chainFuel = isArrayVal h2 p.2 chainFuel) →
      fieldsWrapped h1 hf cid r fl' = fieldsWrapped h2 hf cid r fl' := by
  intro r
  induction r with
  | nil => intro fl' _; cases fl' <;> rfl
  | cons p r ih =>
      intro fl' hag
      obtain ⟨k, v⟩ := p
      cases fl' with
      | nil => rfl
      | cons q fl' =>
          obtain ⟨k', v'⟩ := q
          simp only [fieldsWrapped]
          rw [ih fl' (fun p hp => hag p (List.mem_cons_of_mem _ hp))]
          have hvv : fieldValWrapped h1 hf cid v v' = fieldValWrapped h2 hf cid v v' := by
            unfold fieldValWrapped
            rw [hag (k, v) (List.mem_cons_self _ _)]
          rw [hvv]

/-- `wrapFields` implements the claimed wrapping: in any final heap `hf`
that preserves the region `wrapFields` allocated into, the output field
list wraps every array-valued field of the input in a fresh Observable
owned by `owner` and leaves all other fields untouched. -/
theorem wrapFields_wrapped (owner : Nat) (fl : List (String × JSVal)) :
    ∀ (w : World) (hf : Nat → Option HObj),
      obsClosedB w.heap w.next = true →
      (∀ p ∈ fl, valBelow p.2 w.next = true) →
      (∀ a, w.next ≤ a → a < (wrapFields owner fl w).2.next →
        hf a = (wrapFields owner fl w).2.heap a) →
      fieldsWrapped w.heap hf owner fl (wrapFields owner fl w).1 = true := by
  induction fl with
  | nil => intro w hf _ _ _; simp [wrapFields, fieldsWrapped]
  | cons p r ih =>
      intro w hf hcl hvb hfa
      obtain ⟨k, v⟩ := p
      have hvbv : valBelow v w.next = true := hvb (k, v) (List.mem_cons_self _ _)
      have hvbr : ∀ q ∈ r, valBelow q.2 w.next = true :=
        fun q hq => hvb q (List.mem_cons_of_mem _ hq)
      by_cases hv : isArrayVal w.heap v chainFuel = true
      · have hstep : wrapFields owner ((k, v) :: r) w =
            ((k, JSVal.ref w.next) ::
              (wrapFields owner r (w.alloc (HObj.observable v ObsKind.arrayObs owner)).1).1,
             (wrapFields owner r (w.alloc (HObj.observable v ObsKind.arrayObs owner)).1).2) := by
          simp only [wrapFields, hv, if_true, World.alloc_snd]
        simp only [hstep] at hfa ⊢
        set w1 := (w.alloc (HObj.observable v ObsKind.arrayObs owner)).1 with hw1
        have hagree : ∀ a, a < w.next → w1.heap a = w.heap a :=
          fun a ha => World.alloc_heap_lt w _ a ha
        have hnext1 : w1.next = w.next + 1 := by rw [hw1, World.alloc_next]
        have hcl1 : obsClosedB w1.heap w1.next = true := by
          rw [hnext1]
          apply obsClosedB_extend w.heap w1.heap w.next hagree
          · intro t kk oo hh
            rw [hw1, World.alloc_heap_at] at hh
            cases hh
            exact valBelow_mono v w.next (w.next + 1) (by omega) hvbv
          · exact hcl
        have hfin := (wrapFields_frame owner r w1).2.2.2.2.2.2
        have hfa1 : ∀ a, w1.next ≤ a → a < (wrapFields owner r w1).2.next →
            hf a = (wrapFields owner r w1).2.heap a := by
          intro a h1 h2
          exact hfa a (by omega) h2
        have hrec := ih w1 hf hcl1
          (fun q hq => valBelow_mono q.2 w.next w1.next (by omega) (hvbr q hq)) hfa1
        have hstable : ∀ q ∈ r, isArrayVal w1.heap q.2 chainFuel = isArrayVal w.heap q.2 chainFuel :=
          fun q hq => isArrayVal_stable w.heap w1.heap w.next hagree hcl chainFuel q.2 (hvbr q hq)
        rw [fieldsWrapped_congr w1.heap w.heap hf owner r _ hstable] at hrec
        have hfw : fieldValWrapped w.heap hf owner v (JSVal.ref w.next) = true := by
          unfold fieldValWrapped
          rw [if_pos hv]
          have hhf : hf w.next = some (HObj.observable v ObsKind.arrayObs owner) := by
            rw [hfa w.next (le_refl _) (by omega)]
            rw [wrapFields_heap_lt owner r w1 w.next (by omega)]
            rw [hw1, World.alloc_heap_at]
          simp [hhf]
        simp only [fieldsWrapped, hfw, hrec, Bool.and_true, Bool.true_and, beq_self_eq_true]
      · have hstep : wrapFields owner ((k, v) :: r) w =
            ((k, v) :: (wrapFields owner r w).1, (wrapFields owner r w).2) := by
          simp only [wrapFields, hv, if_false, Bool.false_eq_true]
        simp only [hstep] at hfa ⊢
        have hrec := ih w hf hcl hvbr hfa
        have hfw : fieldValWrapped w.heap hf owner v v = true := by
          unfold fieldValWrapped
          rw [if_neg hv]
          simp
        simp only [fieldsWrapped, hfw, hrec, Bool.and_true, Bool.true_and, beq_self_eq_true]

/-- The full effect of `makeArraysObservable` on a data object: the object
is rewritten in place at its own address with the wrapped field list, the
rest of the already-allocated heap is untouched, and nothing else in the
world changes. -/
theorem makeArraysObservable_spec (owner da : Nat) (w : World)
    (fl : List (String × JSVal)) (hheap : w.heap da = some (HObj.obj fl)) :
    makeArraysObservable owner da w =
      (wrapFields owner fl w).2.setHeap da (HObj.obj (wrapFields owner fl w).1) := by
  unfold makeArraysObservable
  rw [hheap]

/-- Heap preservation through `makeArraysObservable`: addresses below the
allocation pointer other than the data object itself are untouched. -/
theorem makeArraysObservable_heap_lt (owner da : Nat) (w : World)
    (fl : List (String × JSVal)) (hheap : w.heap da = some (HObj.obj fl))
    (a : Nat) (ha : a < w.next) (hne : a ≠ da) :
    (makeArraysObservable owner da w).heap a = w.heap a := by
  rw [makeArraysObservable_spec owner da w fl hheap]
  rw [World.setHeap_heap_ne _ _ _ _ hne]
  exact wrapFields_heap_lt owner fl w a ha

@[simp] theorem makeArraysObservable_comps (owner da : Nat) (w : World) :
    (makeArraysObservable owner da w).comps = w.comps := by
  unfold makeArraysObservable
  split
  · rename_i fl _
    rw [World.setHeap_comps]
    exact (wrapFields_frame owner fl w).1
  · rfl

@[simp] theorem makeArraysObservable_table (owner da : Nat) (w : World) :
    (makeArraysObservable owner da w).table = w.table := by
  unfold makeArraysObservable
  split
  · rename_i fl _
    rw [World.setHeap_table]
    exact (wrapFields_frame owner fl w).2.1
  · rfl

@[simp] theorem makeArraysObservable_log (owner da : Nat) (w : World) :
    (makeArraysObservable owner da w).log = w.log := by
  unfold makeArraysObservable
  split
  · rename_i fl _
    rw [World.setHeap_log]
    exact (wrapFields_frame owner fl w).2.2.1
  · rfl

@[simp] theorem makeArraysObservable_nextKey (owner da : Nat) (w : World) :
    (makeArraysObservable owner da w).nextKey = w.nextKey := by
  unfold makeArraysObservable
  split
  · rename_i fl _
    rw [World.setHeap_nextKey]
    exact (wrapFields_frame owner fl w).2.2.2.1
  · rfl

@[simp] theorem makeArraysObservable_nextCid (owner da : Nat) (w : World) :
    (makeArraysObservable owner da w).nextCid = w.nextCid := by
  unfold makeArraysObservable
  split
  · rename_i fl _
    rw [World.setHeap_nextCid]
    exact (wrapFields_frame owner fl w).2.2.2.2.1
  · rfl

@[simp] theorem makeArraysObservable_docNodes (owner da : Nat) (w : World) :
    (makeArraysObservable owner da w).docNodes = w.docNodes := by
  unfold makeArraysObservable
  split
  · rename_i fl _
    rw [World.setHeap_docNodes]
    exact (wrapFields_frame owner fl w).2.2.2.2.2.1
  · rfl

theorem makeArraysObservable_next_le (owner da : Nat) (w : World) :
    w.next ≤ (makeArraysObservable owner da w).next := by
  unfold makeArraysObservable
  split
  · rename_i fl _
    rw [World.setHeap_next]
    exact (wrapFields_frame owner fl w).2.2.2.2.2.2
  · exact le_refl _

/-- Symbolic run of the constructor when the type id is already cached:
no view invocation, no Parts, no values; just the wrapped data, the data
Observable, and the component registration. -/
theorem mosaicCtor_cached_run (w : World) (o : Options) (t : String) (da : Nat)
    (tmpl : Template)
    (htid : o.tid = some t)
    (hcache : w.table t = some tmpl)
    (hdata : o.data = some da) :
    mosaicCtor w o =
      ({ ((makeArraysObservable w.nextCid da w).alloc
           (HObj.observable (JSVal.ref da) ObsKind.dataObs w.nextCid)).1 with
         comps := fun j => if j = w.nextCid then
             some { tid := t, iid := none, element := o.element,
                    dataAddr := (makeArraysObservable w.nextCid da w).next,
                    actions := o.actions, viewSpec := o.viewSpec,
                    created := o.created, willUpdateHook := o.willUpdateHook,
                    updatedHook := o.updatedHook, willDestroy := o.willDestroy,
                    partsArr := none, values := none, opts := o }
           else ((makeArraysObservable w.nextCid da w).alloc
             (HObj.observable (JSVal.ref da) ObsKind.dataObs w.nextCid)).1.comps j,
         nextCid := w.nextCid + 1 }, w.nextCid) := by
  simp only [mosaicCtor, ctorBranch, htid, hdata, World.alloc_table,
    makeArraysObservable_table, hcache, World.alloc_snd]

/-- Symbolic run of the constructor when the type id is not yet cached and
the configured element is absent: the data is wrapped in place, the data
Observable allocated, the view invoked once and the template cached, the
Parts created, `values.slice()[0]` taken, and the element replaced by a
fresh clone of the template fragment.  The allocations land, in order, at
`M.next`, `M.next+1` (template fragment), `M.next+2` (Parts array
identity) and `M.next+3` (element clone), where `M` abbreviates the world
after `makeArraysObservable`. -/
theorem mosaicCtor_fresh_spec (w : World) (o : Options) (t : String) (da : Nat)
    (fl : List (String × JSVal))
    (htid : o.tid = some t) (hfresh : w.table t = none) (hdata : o.data = some da)
    (hheap : w.heap da = some (HObj.obj fl)) (hda : da < w.next)
    (helem : o.element = none) :
    (mosaicCtor w o).2 = w.nextCid ∧
    (mosaicCtor w o).1.comps w.nextCid = some
      { tid := t, iid := none,
        element := some ((makeArraysObservable w.nextCid da w).next + 3),
        dataAddr := (makeArraysObservable w.nextCid da w).next,
        actions := o.actions, viewSpec := o.viewSpec, created := o.created,
        willUpdateHook := o.willUpdateHook, updatedHook := o.updatedHook,
        willDestroy := o.willDestroy,
        partsArr := some ((makeArraysObservable w.nextCid da w).next + 2,
          mkParts o.viewSpec.numParts),
        values := (o.viewSpec.compute (wrapFields w.nextCid fl w).1).head?,
        opts := o } ∧
    (mosaicCtor w o).1.log = w.log ++ [Event.viewInvoked t, Event.partsCreated t] ∧
    ((mosaicCtor w o).1.table t).map Template.contentAddr =
      some ((makeArraysObservable w.nextCid da w).next + 1) ∧
    (∀ t', t' ≠ t → (mosaicCtor w o).1.table t' = w.table t') ∧
    (mosaicCtor w o).1.nextKey = w.nextKey ∧
    (mosaicCtor w o).1.nextCid = w.nextCid + 1 ∧
    (mosaicCtor w o).1.docNodes = w.docNodes ∧
    (∀ j, j ≠ w.nextCid → (mosaicCtor w o).1.comps j = w.comps j) ∧
    (∀ a, a < w.next → a ≠ da → (mosaicCtor w o).1.heap a = w.heap a) ∧
    (mosaicCtor w o).1.heap da = some (HObj.obj (wrapFields w.nextCid fl w).1) ∧
    (mosaicCtor w o).1.heap ((makeArraysObservable w.nextCid da w).next) =
      some (HObj.observable (JSVal.ref da) ObsKind.dataObs w.nextCid) ∧
    w.next ≤ (makeArraysObservable w.nextCid da w).next ∧
    (mosaicCtor w o).1.next = (makeArraysObservable w.nextCid da w).next + 4 ∧
    (∀ a, w.next ≤ a → a < (makeArraysObservable w.nextCid da w).next →
      (mosaicCtor w o).1.heap a = (wrapFields w.nextCid fl w).2.heap a) ∧
    (mosaicCtor w o).1.heap ((makeArraysObservable w.nextCid da w).next + 3) =
      some (HObj.domNode false []) := by
  have hnle := makeArraysObservable_next_le w.nextCid da w
  have hmnext : (makeArraysObservable w.nextCid da w).next =
      (wrapFields w.nextCid fl w).2.next := by
    rw [makeArraysObservable_spec w.nextCid da w fl hheap, World.setHeap_next]
  have hobj : ((makeArraysObservable w.nextCid da w).alloc
      (HObj.observable (JSVal.ref da) ObsKind.dataObs w.nextCid)).1.heap da =
      some (HObj.obj (wrapFields w.nextCid fl w).1) := by
    rw [World.alloc_heap_lt _ _ da (by omega)]
    rw [makeArraysObservable_spec w.nextCid da w fl hheap]
    exact World.setHeap_heap_at _ _ _
  have hfrag : (((makeArraysObservable w.nextCid da w).alloc
      (HObj.observable (JSVal.ref da) ObsKind.dataObs w.nextCid)).1.alloc
      (HObj.domNode false [])).1.heap ((makeArraysObservable w.nextCid da w).next + 1) =
      some (HObj.domNode false []) := by
    have h := World.alloc_heap_at ((makeArraysObservable w.nextCid da w).alloc
      (HObj.observable (JSVal.ref da) ObsKind.dataObs w.nextCid)).1 (HObj.domNode false [])
    simpa using h
  refine ⟨?_, ?_, ?_, ?_, ?_, ?_, ?_, ?_, ?_, ?_, ?_, ?_, ?_, ?_, ?_, ?_⟩
  · simp only [mosaicCtor, ctorBranch, htid, hdata, World.alloc_table, makeArraysObservable_table,
      hfresh]
  · simp only [mosaicCtor, ctorBranch, htid, hdata, World.alloc_table, makeArraysObservable_table,
      hfresh, hobj, viewApply, docContains, helem, if_true, if_false, Bool.false_eq_true, World.alloc_snd, World.alloc_next,
      World.allocId_snd, World.allocId_next, World.logE_next, hfrag, if_pos rfl]
  · simp only [mosaicCtor, ctorBranch, htid, hdata, World.alloc_table, makeArraysObservable_table,
      hfresh, hobj, viewApply, docContains, helem, if_true, if_false, Bool.false_eq_true, World.alloc_snd, World.alloc_next,
      World.allocId_snd, World.allocId_next, World.logE_next, World.logE_log,
      World.alloc_log, World.allocId_log, makeArraysObservable_log, hfrag,
      List.append_assoc, List.cons_append, List.nil_append]
  · simp only [mosaicCtor, ctorBranch, htid, hdata, World.alloc_table, makeArraysObservable_table,
      hfresh, hobj, viewApply, docContains, helem, if_true, if_false, Bool.false_eq_true, World.alloc_snd, World.alloc_next,
      World.allocId_snd, World.allocId_next, World.logE_next, hfrag, if_pos rfl]
    rfl
  · intro t' hne
    simp only [mosaicCtor, ctorBranch, htid, hdata, World.alloc_table, makeArraysObservable_table,
      hfresh, hobj, viewApply, docContains, helem, if_true, if_false, Bool.false_eq_true, World.alloc_snd, World.alloc_next,
      World.allocId_snd, World.allocId_next, World.logE_next, hfrag,
      World.logE_table, World.allocId_table, if_neg hne]
  · simp only [mosaicCtor, ctorBranch, htid, hdata, World.alloc_table, makeArraysObservable_table,
      hfresh, hobj, viewApply, docContains, helem, if_true, if_false, Bool.false_eq_true, World.alloc_snd, World.alloc_next,
      World.allocId_snd, World.allocId_next, World.logE_next, hfrag,
      World.logE_nextKey, World.alloc_nextKey, World.allocId_nextKey,
      makeArraysObservable_nextKey]
  · simp only [mosaicCtor, ctorBranch, htid, hdata, World.alloc_table, makeArraysObservable_table,
      hfresh, hobj, viewApply, docContains, helem, if_true, if_false, Bool.false_eq_true, World.alloc_snd, World.alloc_next,
      World.allocId_snd, World.allocId_next, World.logE_next, hfrag]
  · simp only [mosaicCtor, ctorBranch, htid, hdata, World.alloc_table, makeArraysObservable_table,
      hfresh, hobj, viewApply, docContains, helem, if_true, if_false, Bool.false_eq_true, World.alloc_snd, World.alloc_next,
      World.allocId_snd, World.allocId_next, World.logE_next, hfrag,
      World.logE_docNodes, World.alloc_docNodes, World.allocId_docNodes,
      makeArraysObservable_docNodes]
  · intro j hj
    simp only [mosaicCtor, ctorBranch, htid, hdata, World.alloc_table, makeArraysObservable_table,
      hfresh, hobj, viewApply, docContains, helem, if_true, if_false, Bool.false_eq_true, World.alloc_snd, World.alloc_next,
      World.allocId_snd, World.allocId_next, World.logE_next, hfrag,
      World.logE_comps, World.alloc_comps, World.allocId_comps,
      makeArraysObservable_comps, if_neg hj]
  · intro a ha hane
    simp only [mosaicCtor, ctorBranch, htid, hdata, World.alloc_table, makeArraysObservable_table,
      hfresh, hobj, viewApply, docContains, helem, if_true, if_false, Bool.false_eq_true, World.alloc_snd, World.alloc_next,
      World.allocId_snd, World.allocId_next, World.logE_next, hfrag,
      World.logE_heap, World.allocId_heap]
    rw [World.alloc_heap_lt _ _ a (by first | omega | (simp; omega) | simp)]
    rw [World.alloc_heap_lt _ _ a (by first | omega | (simp; omega) | simp)]
    rw [World.alloc_heap_lt _ _ a (by omega)]
    exact makeArraysObservable_heap_lt w.nextCid da w fl hheap a ha hane
  · simp only [mosaicCtor, ctorBranch, htid, hdata, World.alloc_table, makeArraysObservable_table,
      hfresh, hobj, viewApply, docContains, helem, if_true, if_false, Bool.false_eq_true, World.alloc_snd, World.alloc_next,
      World.allocId_snd, World.allocId_next, World.logE_next, hfrag,
      World.logE_heap, World.allocId_heap]
    rw [World.alloc_heap_lt _ _ da (by first | omega | (simp; omega) | simp)]
    rw [World.alloc_heap_lt _ _ da (by first | omega | (simp; omega) | simp)]
    exact hobj
  · simp only [mosaicCtor, ctorBranch, htid, hdata, World.alloc_table, makeArraysObservable_table,
      hfresh, hobj, viewApply, docContains, helem, if_true, if_false, Bool.false_eq_true, World.alloc_snd, World.alloc_next,
      World.allocId_snd, World.allocId_next, World.logE_next, hfrag,
      World.logE_heap, World.allocId_heap]
    rw [World.alloc_heap_lt _ _ _ (by first | omega | (simp; omega) | simp)]
    rw [World.alloc_heap_lt _ _ _ (by first | omega | (simp; omega) | simp)]
    exact World.alloc_heap_at _ _
  · exact hnle
  · simp only [mosaicCtor, ctorBranch, htid, hdata, World.alloc_table, makeArraysObservable_table,
      hfresh, hobj, viewApply, docContains, helem, if_true, if_false, Bool.false_eq_true, World.alloc_snd, World.alloc_next,
      World.allocId_snd, World.allocId_next, World.logE_next, hfrag]
  · intro a h1 h2
    simp only [mosaicCtor, ctorBranch, htid, hdata, World.alloc_table, makeArraysObservable_table,
      hfresh, hobj, viewApply, docContains, helem, if_true, if_false, Bool.false_eq_true, World.alloc_snd, World.alloc_next,
      World.allocId_snd, World.allocId_next, World.logE_next, hfrag,
      World.logE_heap, World.allocId_heap]
    rw [World.alloc_heap_lt _ _ a (by first | omega | (simp; omega) | simp)]
    rw [World.alloc_heap_lt _ _ a (by first | omega | (simp; omega) | simp)]
    rw [World.alloc_heap_lt _ _ a (by omega)]
    rw [makeArraysObservable_spec w.nextCid da w fl hheap]
    rw [World.setHeap_heap_ne _ _ _ _ (by omega)]
  · simp only [mosaicCtor, ctorBranch, htid, hdata, World.alloc_table,
      makeArraysObservable_table, hfresh, hobj, viewApply, docContains, helem,
      if_true, if_false, Bool.false_eq_true, World.alloc_snd, World.alloc_next,
      World.allocId_snd, World.allocId_next, World.logE_next, hfrag,
      World.logE_heap, World.allocId_heap]
    have := World.alloc_heap_at ((((makeArraysObservable w.nextCid da w).alloc
      (HObj.observable (JSVal.ref da) ObsKind.dataObs w.nextCid)).1.alloc
      (HObj.domNode false [])).1.allocId).1 (HObj.domNode false [])
    simpa using this

theorem ctorBranch_snd (w : World) (o : Options) (cid : Nat) (tid : String)
    (dAddr : Nat) (base : MosaicC) :
    (ctorBranch w o cid tid dAddr base).2 = cid := by
  unfold ctorBranch
  split
  · rfl
  · rfl

theorem ctorBranch_heap_lt (w : World) (o : Options) (cid : Nat) (tid : String)
    (dAddr : Nat) (base : MosaicC) (a : Nat) (ha : a < w.next) :
    (ctorBranch w o cid tid dAddr base).1.heap a = w.heap a := by
  unfold ctorBranch
  split
  · rfl
  · simp only [viewApply]
    split
    · simp only [World.logE_heap, World.allocId_heap]
      exact World.alloc_heap_lt w _ a ha
    · simp only [World.logE_heap, World.allocId_heap]
      rw [World.alloc_heap_lt _ _ a (by simp only [World.logE_next,
        World.allocId_next, World.alloc_next]; omega)]
      simp only [World.logE_heap, World.allocId_heap]
      exact World.alloc_heap_lt w _ a ha

theorem ctorBranch_next_ge (w : World) (o : Options) (cid : Nat) (tid : String)
    (dAddr : Nat) (base : MosaicC) :
    w.next ≤ (ctorBranch w o cid tid dAddr base).1.next := by
  unfold ctorBranch
  split
  · exact le_refl _
  · simp only [viewApply]
    split
    · simp only [World.logE_next, World.allocId_next, World.alloc_next]
      omega
    · simp only [World.logE_next, World.allocId_next, World.alloc_next]
      omega

/-- After the constructor wraps the data and allocates the data Observable,
the rest of the constructor leaves the data object itself untouched: at
its original address sits the wrapped field list. -/
theorem ctor_tail_heap_da (w' : World) (o : Options) (cid : Nat) (tid : String)
    (da : Nat) (fl : List (String × JSVal)) (base : MosaicC)
    (hheap : w'.heap da = some (HObj.obj fl)) (hda : da < w'.next) :
    (ctorBranch ((makeArraysObservable cid da w').alloc
        (HObj.observable (JSVal.ref da) ObsKind.dataObs cid)).1 o cid tid da
        base).1.heap da =
      some (HObj.obj (wrapFields cid fl w').1) := by
  have hle := makeArraysObservable_next_le cid da w'
  rw [ctorBranch_heap_lt _ _ _ _ _ _ da (by simp only [World.alloc_next]; omega)]
  rw [World.alloc_heap_lt _ _ da (by omega)]
  rw [makeArraysObservable_spec cid da w' fl hheap]
  exact World.setHeap_heap_at _ _ _

/-- The constructor also preserves the Observables `wrapFields` freshly
allocated: the final heap agrees with the post-wrap heap on the whole
region `wrapFields` allocated into. -/
theorem ctor_tail_agrees (w' : World) (o : Options) (cid : Nat) (tid : String)
    (da : Nat) (fl : List (String × JSVal)) (base : MosaicC)
    (hheap : w'.heap da = some (HObj.obj fl)) (hda : da < w'.next) :
    ∀ a, w'.next ≤ a → a < (wrapFields cid fl w').2.next →
      (ctorBranch ((makeArraysObservable cid da w').alloc
          (HObj.observable (JSVal.ref da) ObsKind.dataObs cid)).1 o cid tid da
          base).1.heap a =
        (wrapFields cid fl w').2.heap a := by
  intro a h1 h2
  have hmnext : (makeArraysObservable cid da w').next = (wrapFields cid fl w').2.next := by
    rw [makeArraysObservable_spec cid da w' fl hheap, World.setHeap_next]
  rw [ctorBranch_heap_lt _ _ _ _ _ _ a (by simp only [World.alloc_next]; omega)]
  rw [World.alloc_heap_lt _ _ a (by omega)]
  rw [makeArraysObservable_spec cid da w' fl hheap]
  exact World.setHeap_heap_ne _ _ _ _ (by omega)

/-- C10: constructing a Mosaic mutates the caller's `options.data` object
in place: at the data object's own address, every array-valued property is
replaced by a reference to a fresh Observable wrapper owned by the new
instance, wrapping exactly the original value, while all other properties
are untouched — so the replacement is visible to the caller through their
original reference. -/
theorem C10_ctor_wraps_caller_data_in_place (w : World) (o : Options)
    (da : Nat) (fl : List (String × JSVal))
    (hdata : o.data = some da)
    (hheap : w.heap da = some (HObj.obj fl))
    (hda : da < w.next)
    (hclosed : obsClosedB w.heap w.next = true)
    (hvb : ∀ p ∈ fl, valBelow p.2 w.next = true) :
    wrappedOk w.heap (mosaicCtor w o).1.heap (mosaicCtor w o).2 da fl = true := by
  rcases htid : o.tid with _ | t
  · simp only [mosaicCtor, htid, hdata, ctorBranch_snd]
    unfold wrappedOk
    rw [ctor_tail_heap_da { w with nextKey := w.nextKey + 1 } o w.nextCid
      (mkKey w.nextKey) da fl _ hheap hda]
    exact wrapFields_wrapped w.nextCid fl { w with nextKey := w.nextKey + 1 } _
      hclosed hvb
      (ctor_tail_agrees { w with nextKey := w.nextKey + 1 } o w.nextCid
        (mkKey w.nextKey) da fl _ hheap hda)
  · simp only [mosaicCtor, htid, hdata, ctorBranch_snd]
    unfold wrappedOk
    rw [ctor_tail_heap_da _ o w.nextCid t da fl _ hheap hda]
    exact wrapFields_wrapped w.nextCid fl w _ hclosed hvb
      (ctor_tail_agrees w o w.nextCid t da fl _ hheap hda)

/-- Closed instance of the in-place wrapping theorem on the hook-example
options: after construction the caller's data object at address 0 still
holds `n` unchanged and `todos` replaced by an Observable wrapping the
original array reference. -/
theorem C10_ctor_wraps_caller_data_in_place_witness :
    wrappedOk wH0.heap (mosaicCtor wH0 oH).1.heap (mosaicCtor wH0 oH).2 0
      [("n", JSVal.num 1), ("todos", JSVal.ref 1)] = true :=
  C10_ctor_wraps_caller_data_in_place wH0 oH 0
    [("n", JSVal.num 1), ("todos", JSVal.ref 1)] rfl rfl (by decide) (by decide)
    (by decide)

/-- Symbolic run of `Mosaic.prototype.new` on a well-formed parent whose
type id is cached: the merged data object is allocated at `w.next`, the
constructor takes the cached branch, and the copy receives a fresh `iid`,
a fresh Parts array holding the parent's Parts, a cloned element, freshly
computed values, and a repaint.  `M` abbreviates the world after
`makeArraysObservable` ran over the merged data: the copy's data
Observable sits at `M.next`, its Parts array identity is `M.next + 1` and
its cloned element `M.next + 2`. -/
theorem mosaicNew_spec (w : World) (cid : Nat) (patch : List (String × JSVal))
    (c : MosaicC) (d : Nat) (kind : ObsKind) (own : Nat)
    (fl : List (String × JSVal)) (pid : Nat) (ps : List MPart) (e : Nat)
    (hb : Bool) (ch : List Nat) (tmpl : Template) (row : List JSVal)
    (hc : w.comps cid = some c)
    (hobs : w.heap c.dataAddr = some (HObj.observable (JSVal.ref d) kind own))
    (hd : w.heap d = some (HObj.obj fl))
    (hparts : c.partsArr = some (pid, ps))
    (helem : c.element = some e)
    (he : w.heap e = some (HObj.domNode hb ch))
    (helt : e < w.next)
    (hcache : w.table c.tid = some tmpl)
    (hcidne : cid ≠ w.nextCid)
    (hrow : ((c.opts.viewSpec.compute
        (wrapFields w.nextCid (mergeFields fl patch)
          (w.alloc (HObj.obj (mergeFields fl patch))).1).1).head?) = some row) :
    (mosaicNew w cid patch).2 = Except.ok w.nextCid ∧
    (mosaicNew w cid patch).1.comps w.nextCid = some
      { tid := c.tid, iid := some (mkKey w.nextKey),
        element := some ((makeArraysObservable w.nextCid w.next
          (w.alloc (HObj.obj (mergeFields fl patch))).1).next + 1 + 1),
        dataAddr := (makeArraysObservable w.nextCid w.next
          (w.alloc (HObj.obj (mergeFields fl patch))).1).next,
        actions := c.opts.actions, viewSpec := c.opts.viewSpec,
        created := c.opts.created, willUpdateHook := c.opts.willUpdateHook,
        updatedHook := c.opts.updatedHook, willDestroy := c.opts.willDestroy,
        partsArr := some ((makeArraysObservable w.nextCid w.next
          (w.alloc (HObj.obj (mergeFields fl patch))).1).next + 1,
          (repaintBody ps row).1),
        values := some row,
        opts := { c.opts with data := some w.next, tid := some c.tid } } ∧
    (∀ j, j ≠ w.nextCid → (mosaicNew w cid patch).1.comps j = w.comps j) ∧
    (∀ a, a < w.next → (mosaicNew w cid patch).1.heap a = w.heap a) ∧
    (mosaicNew w cid patch).1.heap ((makeArraysObservable w.nextCid w.next
        (w.alloc (HObj.obj (mergeFields fl patch))).1).next) =
      some (HObj.observable (JSVal.ref w.next) ObsKind.dataObs w.nextCid) ∧
    (mosaicNew w cid patch).1.heap w.next =
      some (HObj.obj (wrapFields w.nextCid (mergeFields fl patch)
        (w.alloc (HObj.obj (mergeFields fl patch))).1).1) ∧
    (mosaicNew w cid patch).1.log =
      w.log ++ [Event.viewInvoked c.tid, Event.repaintCall]
            ++ (repaintBody ps row).2.map Event.commitPart ∧
    (mosaicNew w cid patch).1.table = w.table ∧
    (mosaicNew w cid patch).1.nextKey = w.nextKey + 1 ∧
    (mosaicNew w cid patch).1.nextCid = w.nextCid + 1 ∧
    w.next ≤ (makeArraysObservable w.nextCid w.next
      (w.alloc (HObj.obj (mergeFields fl patch))).1).next := by
  have hP1heap : (w.alloc (HObj.obj (mergeFields fl patch))).1.heap w.next =
      some (HObj.obj (mergeFields fl patch)) := World.alloc_heap_at _ _
  have htab1 : (w.alloc (HObj.obj (mergeFields fl patch))).1.table c.tid = some tmpl := by
    rw [World.alloc_table]; exact hcache
  have hmle : (w.alloc (HObj.obj (mergeFields fl patch))).1.next ≤
      (makeArraysObservable w.nextCid w.next
        (w.alloc (HObj.obj (mergeFields fl patch))).1).next :=
    makeArraysObservable_next_le _ _ _
  have hmle' : w.next + 1 ≤ (makeArraysObservable w.nextCid w.next
      (w.alloc (HObj.obj (mergeFields fl patch))).1).next := by
    simpa using hmle
  have hrun := mosaicCtor_cached_run (w.alloc (HObj.obj (mergeFields fl patch))).1
    { c.opts with data := some w.next, tid := some c.tid } c.tid w.next tmpl
    rfl htab1 rfl
  simp only [World.alloc_nextCid] at hrun
  have hMe : (makeArraysObservable w.nextCid w.next
      (w.alloc (HObj.obj (mergeFields fl patch))).1).heap e =
      (w.alloc (HObj.obj (mergeFields fl patch))).1.heap e :=
    makeArraysObservable_heap_lt w.nextCid w.next _ (mergeFields fl patch)
      hP1heap e (by simp only [World.alloc_next]; omega) (by omega)
  have hMd : (makeArraysObservable w.nextCid w.next
      (w.alloc (HObj.obj (mergeFields fl patch))).1).heap w.next =
      some (HObj.obj (wrapFields w.nextCid (mergeFields fl patch)
        (w.alloc (HObj.obj (mergeFields fl patch))).1).1) := by
    rw [makeArraysObservable_spec w.nextCid w.next _ (mergeFields fl patch) hP1heap]
    exact World.setHeap_heap_at _ _ _
  have hne0 : ¬(w.next = (makeArraysObservable w.nextCid w.next
      (w.alloc (HObj.obj (mergeFields fl patch))).1).next) := by omega
  have hne1 : ¬(w.next = (makeArraysObservable w.nextCid w.next
      (w.alloc (HObj.obj (mergeFields fl patch))).1).next + 1) := by omega
  have hne2 : ¬(w.next = (makeArraysObservable w.nextCid w.next
      (w.alloc (HObj.obj (mergeFields fl patch))).1).next + 1 + 1) := by omega
  have hne3 : ¬(w.next = (makeArraysObservable w.nextCid w.next
      (w.alloc (HObj.obj (mergeFields fl patch))).1).next + 1 + 1 + 1) := by omega
  have hneE0 : ¬(e = (makeArraysObservable w.nextCid w.next
      (w.alloc (HObj.obj (mergeFields fl patch))).1).next) := by omega
  have hneE1 : ¬(e = (makeArraysObservable w.nextCid w.next
      (w.alloc (HObj.obj (mergeFields fl patch))).1).next + 1) := by omega
  have hneE2 : ¬(e = (makeArraysObservable w.nextCid w.next
      (w.alloc (HObj.obj (mergeFields fl patch))).1).next + 1 + 1) := by omega
  have hneEw : ¬(e = w.next) := by omega
  have hself2 : ¬((makeArraysObservable w.nextCid w.next
      (w.alloc (HObj.obj (mergeFields fl patch))).1).next =
    (makeArraysObservable w.nextCid w.next
      (w.alloc (HObj.obj (mergeFields fl patch))).1).next + 1 + 1) := by omega
  have hself3 : ¬((makeArraysObservable w.nextCid w.next
      (w.alloc (HObj.obj (mergeFields fl patch))).1).next =
    (makeArraysObservable w.nextCid w.next
      (w.alloc (HObj.obj (mergeFields fl patch))).1).next + 1 + 1 + 1) := by omega
  refine ⟨?_, ?_, ?_, ?_, ?_, ?_, ?_, ?_, ?_, ?_, by omega⟩
  · simp [mosaicNew, hc, hobs, hd, hrun, hparts, helem, viewApply,
      World.updateComp, repaintRun, hrow, World.alloc_heap, hMe, hMd, he,
      hne0, hne1, hne2, hne3, hneE0, hneE1, hneE2, hneEw, hself2, hself3]
  · simp [mosaicNew, hc, hobs, hd, hrun, hparts, helem, viewApply,
      World.updateComp, repaintRun, hrow, World.alloc_heap, hMe, hMd, he,
      hne0, hne1, hne2, hne3, hneE0, hneE1, hneE2, hneEw, hself2, hself3]
  · intro j hj
    simp [mosaicNew, hc, hobs, hd, hrun, hparts, helem, viewApply,
      World.updateComp, repaintRun, hrow, World.alloc_heap, hMe, hMd, he,
      hne0, hne1, hne2, hne3, hneE0, hneE1, hneE2, hneEw, hj]
  · intro a ha
    have hMa : (makeArraysObservable w.nextCid w.next
        (w.alloc (HObj.obj (mergeFields fl patch))).1).heap a =
        (w.alloc (HObj.obj (mergeFields fl patch))).1.heap a :=
      makeArraysObservable_heap_lt w.nextCid w.next _ (mergeFields fl patch)
        hP1heap a (by simp only [World.alloc_next]; omega) (by omega)
    have hna0 : ¬(a = (makeArraysObservable w.nextCid w.next
        (w.alloc (HObj.obj (mergeFields fl patch))).1).next) := by omega
    have hna1 : ¬(a = (makeArraysObservable w.nextCid w.next
        (w.alloc (HObj.obj (mergeFields fl patch))).1).next + 1) := by omega
    have hna2 : ¬(a = (makeArraysObservable w.nextCid w.next
        (w.alloc (HObj.obj (mergeFields fl patch))).1).next + 1 + 1) := by omega
    have hna3 : ¬(a = (makeArraysObservable w.nextCid w.next
        (w.alloc (HObj.obj (mergeFields fl patch))).1).next + 1 + 1 + 1) := by omega
    have hnaw : ¬(a = w.next) := by omega
    simp [mosaicNew, hc, hobs, hd, hrun, hparts, helem, viewApply,
      World.updateComp, repaintRun, hrow, World.alloc_heap, hMa, hMe, hMd, he,
      hne0, hne1, hne2, hne3, hneE0, hneE1, hneE2, hneEw, hna0, hna1, hna2,
      hna3, hnaw]
  · simp [mosaicNew, hc, hobs, hd, hrun, hparts, helem, viewApply,
      World.updateComp, repaintRun, hrow, World.alloc_heap, hMe, hMd, he,
      hne0, hne1, hne2, hne3, hneE0, hneE1, hneE2, hneEw, hself2, hself3]
  · simp [mosaicNew, hc, hobs, hd, hrun, hparts, helem, viewApply,
      World.updateComp, repaintRun, hrow, World.alloc_heap, hMe, hMd, he,
      hne0, hne1, hne2, hne3, hneE0, hneE1, hneE2, hneEw, hself2, hself3]
  · simp [mosaicNew, hc, hobs, hd, hrun, hparts, helem, viewApply,
      World.updateComp, repaintRun, hrow, World.alloc_heap, hMe, hMd, he,
      hne0, hne1, hne2, hne3, hneE0, hneE1, hneE2, hneEw, hself2, hself3]
  · simp [mosaicNew, hc, hobs, hd, hrun, hparts, helem, viewApply,
      World.updateComp, repaintRun, hrow, World.alloc_heap, hMe, hMd, he,
      hne0, hne1, hne2, hne3, hneE0, hneE1, hneE2, hneEw, hself2, hself3]
  · simp [mosaicNew, hc, hobs, hd, hrun, hparts, helem, viewApply,
      World.updateComp, repaintRun, hrow, World.alloc_heap, hMe, hMd, he,
      hne0, hne1, hne2, hne3, hneE0, hneE1, hneE2, hneEw, hself2, hself3]
  · simp [mosaicNew, hc, hobs, hd, hrun, hparts, helem, viewApply,
      World.updateComp, repaintRun, hrow, World.alloc_heap, hMe, hMd, he,
      hne0, hne1, hne2, hne3, hneE0, hneE1, hneE2, hneEw, hself2, hself3]

/-- `repaint` never touches the heap. -/
theorem repaintRun_heap (w : World) (cid : Nat) :
    (repaintRun w cid).1.heap = w.heap := by
  unfold repaintRun
  split
  · rfl
  · split
    · simp
    · split
      · split <;> simp
      · simp

/-- The before-change callbacks never touch the heap. -/
theorem fireBefore_heap (w : World) (kind : ObsKind) (own : Nat)
    (snap : List (String × JSVal)) :
    (fireBefore w kind own snap).1.heap = w.heap := by
  unfold fireBefore
  split
  · rfl
  · split
    · split <;> simp
    · split <;> simp

/-- The after-change callbacks never touch the heap. -/
theorem fireAfter_heap (w : World) (kind : ObsKind) (own : Nat) :
    (fireAfter w kind own).1.heap = w.heap := by
  unfold fireAfter
  split
  · rfl
  · split <;> split <;>
      rcases h2 : (repaintRun w own).2 with e | u <;>
      simp [h2, repaintRun_heap]

/-- A property assignment through a data Observable writes only the wrapped
object's own address: every other heap cell is untouched, whatever the
hooks do. -/
theorem setDataProp_frame (w : World) (cid : Nat) (k : String) (v : JSVal)
    (c : MosaicC) (dd : Nat) (kind : ObsKind) (own : Nat)
    (fl2 : List (String × JSVal))
    (hc : w.comps cid = some c)
    (hobs : w.heap c.dataAddr = some (HObj.observable (JSVal.ref dd) kind own))
    (hdh : w.heap dd = some (HObj.obj fl2)) :
    ∀ a, a ≠ dd → (setDataProp w cid k v).1.heap a = w.heap a := by
  intro a hne
  unfold setDataProp obsSetProp
  rw [hc]
  simp only [hobs, hdh]
  rcases hb2 : (fireBefore (w.setHeap dd (HObj.obj (setField fl2 k v))) kind own fl2).2
    with e | u
  · simp only [hb2]
    rw [fireBefore_heap]
    exact World.setHeap_heap_ne _ _ _ _ hne
  · simp only [hb2]
    rw [fireAfter_heap, fireBefore_heap]
    exact World.setHeap_heap_ne _ _ _ _ hne

/-- A property assignment through a data Observable owned by a component
with Parts and values in place always completes: the before-callback of
the data observable never throws, and the repaint finds its Parts. -/
theorem setDataProp_ok (w : World) (cid : Nat) (k : String) (v : JSVal)
    (c : MosaicC) (dd pid : Nat) (fl2 : List (String × JSVal))
    (ps : List MPart) (vs : List JSVal)
    (hc : w.comps cid = some c)
    (hobs : w.heap c.dataAddr = some (HObj.observable (JSVal.ref dd) ObsKind.dataObs cid))
    (hdh : w.heap dd = some (HObj.obj fl2))
    (hparts : c.partsArr = some (pid, ps))
    (hvals : c.values = some vs) :
    (setDataProp w cid k v).2 = Except.ok () := by
  have hcomps1 : (w.setHeap dd (HObj.obj (setField fl2 k v))).comps cid = some c := by
    simp [World.setHeap, hc]
  unfold setDataProp obsSetProp
  rw [hc]
  simp only [hobs, hdh, fireBefore, hcomps1]
  by_cases hwu : c.willUpdateHook = true <;>
    simp only [hwu, if_true, if_false, Bool.false_eq_true] <;>
    simp only [fireAfter, World.logE_comps, hcomps1, repaintRun, World.logE_log,
      hparts, hvals, World.updateComp] <;>
    by_cases hup : c.updatedHook = true <;>
    simp [hup, hcomps1]

/-- C8 (amended): `equals` is true exactly when both `tid` and `iid` match;
but only instances produced by `new` carry a fresh `iid` — the constructor
leaves `iid` undefined.  A `new`-produced copy therefore never equals its
parent (fresh `iid` against the parent's undefined one), while two
directly-constructed instances of one type are reported equal (see the
counterexample). -/
theorem C8_equals_iff_iid_amended (w : World) (o : Options) (t : String)
    (da : Nat) (fl : List (String × JSVal)) (patch : List (String × JSVal))
    (c1 c2 : MosaicC)
    (htid : o.tid = some t) (hfresh : w.table t = none) (hdata : o.data = some da)
    (hheap : w.heap da = some (HObj.obj fl)) (hda : da < w.next)
    (helem : o.element = none)
    (hwf : ∀ l, ((o.viewSpec.compute l).head?).map List.length =
      some o.viewSpec.numParts) :
    (mosaicEquals c1 c2 = true ↔ (c1.tid = c2.tid ∧ c1.iid = c2.iid)) ∧
    ((mosaicCtor w o).1.comps w.nextCid).map MosaicC.iid = some none ∧
    (mosaicNew (mosaicCtor w o).1 w.nextCid patch).2 = Except.ok (w.nextCid + 1) ∧
    ((mosaicNew (mosaicCtor w o).1 w.nextCid patch).1.comps (w.nextCid + 1)).map
      MosaicC.iid = some (some (mkKey w.nextKey)) ∧
    compEquals (mosaicNew (mosaicCtor w o).1 w.nextCid patch).1
      (w.nextCid + 1) w.nextCid = some false := by
  obtain ⟨h1, h2, h3, h4, h5, h6, h7, h8, h9, h10, h11, h12, h13, h14, h15, h16⟩ :=
    mosaicCtor_fresh_spec w o t da fl htid hfresh hdata hheap hda helem
  obtain ⟨tmpl, htmpl, _⟩ := Option.map_eq_some'.mp h4
  obtain ⟨row, hrow, _⟩ := Option.map_eq_some'.mp (hwf
    ((wrapFields (w.nextCid + 1)
      (mergeFields (wrapFields w.nextCid fl w).1 patch)
      ((mosaicCtor w o).1.alloc
        (HObj.obj (mergeFields (wrapFields w.nextCid fl w).1 patch))).1).1))
  obtain ⟨n1, n2, n3, n4, n5, n6, n7, n8, n9, n10, n11⟩ :=
    mosaicNew_spec (mosaicCtor w o).1 w.nextCid patch _ da ObsKind.dataObs
      w.nextCid (wrapFields w.nextCid fl w).1
      ((makeArraysObservable w.nextCid da w).next + 2)
      (mkParts o.viewSpec.numParts)
      ((makeArraysObservable w.nextCid da w).next + 3) false [] tmpl row
      h2 h12 h11 rfl rfl h16 (by omega) htmpl (by omega) (by rw [h7]; exact hrow)
  refine ⟨?_, ?_, ?_, ?_, ?_⟩
  · simp [mosaicEquals, Bool.and_eq_true, beq_iff_eq]
  · rw [h2]; rfl
  · rw [n1, h7]
  · rw [← h7]
    rw [n2, h6]
    rfl
  · unfold compEquals
    rw [← h7]
    rw [n2, n3 w.nextCid (by rw [h7]; omega), h2]
    simp [mosaicEquals]

/-- Closed instance of the amended equals/iid theorem on the clone example:
the parent (cid 0) has no iid, the copy (cid 1) gets the fresh key, and
`equals` separates them. -/
theorem C8_equals_iff_iid_amended_witness :
    (mosaicEquals cZ cZ = true ↔ (cZ.tid = cZ.tid ∧ cZ.iid = cZ.iid)) ∧
    ((mosaicCtor wC0 oC).1.comps wC0.nextCid).map MosaicC.iid = some none ∧
    (mosaicNew (mosaicCtor wC0 oC).1 wC0.nextCid [("x", JSVal.num 5)]).2 =
      Except.ok (wC0.nextCid + 1) ∧
    ((mosaicNew (mosaicCtor wC0 oC).1 wC0.nextCid
        [("x", JSVal.num 5)]).1.comps (wC0.nextCid + 1)).map MosaicC.iid =
      some (some (mkKey wC0.nextKey)) ∧
    compEquals (mosaicNew (mosaicCtor wC0 oC).1 wC0.nextCid
        [("x", JSVal.num 5)]).1 (wC0.nextCid + 1) wC0.nextCid = some false :=
  C8_equals_iff_iid_amended wC0 oC "C" 0
    [("x", JSVal.num 1), ("todos", JSVal.ref 1)] [("x", JSVal.num 5)]
    cZ cZ rfl rfl rfl rfl (by decide) rfl (fun l => rfl)

/-- C7 (amended): for a freshly constructed parent A (cid `w.nextCid`) and
`B := A.new(patch)` (cid `w.nextCid + 1`): B is created successfully, B's
tid equals A's tid, `B.equals(A)` is false, and a top-level property
assignment through B's data Observable leaves the parent's data object (at
the caller's original address `da`) unchanged — as does `new` itself.
The original claim's "including nested values" part fails: nested arrays
are shared between the two data objects by the shallow `Object.assign`
(see the counterexample). -/
theorem C7_new_shields_parent_data_amended (w : World) (o : Options) (t : String)
    (da : Nat) (fl : List (String × JSVal)) (patch : List (String × JSVal))
    (k : String) (v : JSVal)
    (htid : o.tid = some t) (hfresh : w.table t = none) (hdata : o.data = some da)
    (hheap : w.heap da = some (HObj.obj fl)) (hda : da < w.next)
    (helem : o.element = none)
    (hwf : ∀ l, ((o.viewSpec.compute l).head?).map List.length =
      some o.viewSpec.numParts) :
    (mosaicNew (mosaicCtor w o).1 w.nextCid patch).2 = Except.ok (w.nextCid + 1) ∧
    ((mosaicNew (mosaicCtor w o).1 w.nextCid patch).1.comps (w.nextCid + 1)).map
      MosaicC.tid = some t ∧
    ((mosaicNew (mosaicCtor w o).1 w.nextCid patch).1.comps w.nextCid).map
      MosaicC.tid = some t ∧
    compEquals (mosaicNew (mosaicCtor w o).1 w.nextCid patch).1
      (w.nextCid + 1) w.nextCid = some false ∧
    (mosaicNew (mosaicCtor w o).1 w.nextCid patch).1.heap da =
      (mosaicCtor w o).1.heap da ∧
    (setDataProp (mosaicNew (mosaicCtor w o).1 w.nextCid patch).1
      (w.nextCid + 1) k v).2 = Except.ok () ∧
    (setDataProp (mosaicNew (mosaicCtor w o).1 w.nextCid patch).1
      (w.nextCid + 1) k v).1.heap da = (mosaicCtor w o).1.heap da := by
  obtain ⟨h1, h2, h3, h4, h5, h6, h7, h8, h9, h10, h11, h12, h13, h14, h15, h16⟩ :=
    mosaicCtor_fresh_spec w o t da fl htid hfresh hdata hheap hda helem
  obtain ⟨tmpl, htmpl, _⟩ := Option.map_eq_some'.mp h4
  obtain ⟨row, hrow, _⟩ := Option.map_eq_some'.mp (hwf
    ((wrapFields (w.nextCid + 1)
      (mergeFields (wrapFields w.nextCid fl w).1 patch)
      ((mosaicCtor w o).1.alloc
        (HObj.obj (mergeFields (wrapFields w.nextCid fl w).1 patch))).1).1))
  obtain ⟨n1, n2, n3, n4, n5, n6, n7, n8, n9, n10, n11⟩ :=
    mosaicNew_spec (mosaicCtor w o).1 w.nextCid patch _ da ObsKind.dataObs
      w.nextCid (wrapFields w.nextCid fl w).1
      ((makeArraysObservable w.nextCid da w).next + 2)
      (mkParts o.viewSpec.numParts)
      ((makeArraysObservable w.nextCid da w).next + 3) false [] tmpl row
      h2 h12 h11 rfl rfl h16 (by omega) htmpl (by omega) (by rw [h7]; exact hrow)
  have hdaneq : da ≠ (mosaicCtor w o).1.next := by omega
  have hdalt : da < (mosaicCtor w o).1.next := by omega
  refine ⟨?_, ?_, ?_, ?_, ?_, ?_, ?_⟩
  · rw [n1, h7]
  · rw [← h7, n2]
    rfl
  · rw [n3 w.nextCid (by omega), h2]
    rfl
  · unfold compEquals
    rw [← h7]
    rw [n2, n3 w.nextCid (by rw [h7]; omega), h2]
    simp [mosaicEquals]
  · exact n4 da hdalt
  · rw [← h7]
    exact setDataProp_ok _ _ k v _ _ _ _ _ _ n2 n5 n6 rfl rfl
  · rw [← h7]
    rw [setDataProp_frame _ _ k v _ _ _ _ _ n2 n5 n6 da hdaneq]
    exact n4 da hdalt

/-- Closed instance of the amended `new` frame theorem on the clone
example: the parent keeps its wrapped data object at address 0 across the
copy's creation and across a top-level write to the copy's data. -/
theorem C7_new_shields_parent_data_amended_witness :
    (mosaicNew (mosaicCtor wC0 oC).1 wC0.nextCid [("x", JSVal.num 5)]).2 =
      Except.ok (wC0.nextCid + 1) ∧
    ((mosaicNew (mosaicCtor wC0 oC).1 wC0.nextCid
        [("x", JSVal.num 5)]).1.comps (wC0.nextCid + 1)).map
      MosaicC.tid = some "C" ∧
    ((mosaicNew (mosaicCtor wC0 oC).1 wC0.nextCid
        [("x", JSVal.num 5)]).1.comps wC0.nextCid).map
      MosaicC.tid = some "C" ∧
    compEquals (mosaicNew (mosaicCtor wC0 oC).1 wC0.nextCid
        [("x", JSVal.num 5)]).1 (wC0.nextCid + 1) wC0.nextCid = some false ∧
    (mosaicNew (mosaicCtor wC0 oC).1 wC0.nextCid
        [("x", JSVal.num 5)]).1.heap 0 = (mosaicCtor wC0 oC).1.heap 0 ∧
    (setDataProp (mosaicNew (mosaicCtor wC0 oC).1 wC0.nextCid
        [("x", JSVal.num 5)]).1 (wC0.nextCid + 1) "x" (JSVal.num 9)).2 =
      Except.ok () ∧
    (setDataProp (mosaicNew (mosaicCtor wC0 oC).1 wC0.nextCid
        [("x", JSVal.num 5)]).1 (wC0.nextCid + 1) "x" (JSVal.num 9)).1.heap 0 =
      (mosaicCtor wC0 oC).1.heap 0 :=
  C7_new_shields_parent_data_amended wC0 oC "C" 0
    [("x", JSVal.num 1), ("todos", JSVal.ref 1)] [("x", JSVal.num 5)]
    "x" (JSVal.num 9) rfl rfl rfl rfl (by decide) rfl (fun l => rfl)

/-- One repaint pass returns as many Parts as it was given. -/
theorem repaintBody_fst_length (ps : List MPart) (vs : List JSVal) :
    (repaintBody ps vs).1.length = ps.length := by
  rw [repaintBody, repaintLoop_fst]
  simp

/-- C2 (amended): the instance that populates the template cache and every
`new`-produced copy have `parts` and `values` both defined and of equal
length (the view's binding-point count), Part `i` being checked against
`values[i]` by the repaint loop (see the C4 theorem).  The original
claim's "every instance" fails for a direct construction whose type id is
already cached: such an instance has `parts` and `values` undefined (see
the counterexample). -/
theorem C2_parts_values_aligned_amended (w : World) (o : Options) (t : String)
    (da : Nat) (fl : List (String × JSVal)) (patch : List (String × JSVal))
    (htid : o.tid = some t) (hfresh : w.table t = none) (hdata : o.data = some da)
    (hheap : w.heap da = some (HObj.obj fl)) (hda : da < w.next)
    (helem : o.element = none)
    (hwf : ∀ l, ((o.viewSpec.compute l).head?).map List.length =
      some o.viewSpec.numParts) :
    ((mosaicCtor w o).1.comps w.nextCid).map
      (fun c => (c.partsArr.map (fun pr => pr.2.length), c.values.map List.length)) =
      some (some o.viewSpec.numParts, some o.viewSpec.numParts) ∧
    ((mosaicNew (mosaicCtor w o).1 w.nextCid patch).1.comps (w.nextCid + 1)).map
      (fun c => (c.partsArr.map (fun pr => pr.2.length), c.values.map List.length)) =
      some (some o.viewSpec.numParts, some o.viewSpec.numParts) := by
  obtain ⟨h1, h2, h3, h4, h5, h6, h7, h8, h9, h10, h11, h12, h13, h14, h15, h16⟩ :=
    mosaicCtor_fresh_spec w o t da fl htid hfresh hdata hheap hda helem
  obtain ⟨tmpl, htmpl, _⟩ := Option.map_eq_some'.mp h4
  obtain ⟨row0, hrow0, hlen0⟩ := Option.map_eq_some'.mp
    (hwf ((wrapFields w.nextCid fl w).1))
  obtain ⟨row, hrow, hlen⟩ := Option.map_eq_some'.mp (hwf
    ((wrapFields (w.nextCid + 1)
      (mergeFields (wrapFields w.nextCid fl w).1 patch)
      ((mosaicCtor w o).1.alloc
        (HObj.obj (mergeFields (wrapFields w.nextCid fl w).1 patch))).1).1))
  obtain ⟨n1, n2, n3, n4, n5, n6, n7, n8, n9, n10, n11⟩ :=
    mosaicNew_spec (mosaicCtor w o).1 w.nextCid patch _ da ObsKind.dataObs
      w.nextCid (wrapFields w.nextCid fl w).1
      ((makeArraysObservable w.nextCid da w).next + 2)
      (mkParts o.viewSpec.numParts)
      ((makeArraysObservable w.nextCid da w).next + 3) false [] tmpl row
      h2 h12 h11 rfl rfl h16 (by omega) htmpl (by omega) (by rw [h7]; exact hrow)
  refine ⟨?_, ?_⟩
  · rw [h2]
    simp [mkParts, hrow0, hlen0]
  · rw [← h7, n2]
    simp [repaintBody_fst_length, mkParts, hlen]

/-- Closed instance of the amended parts/values alignment theorem on the
clone example: both the cache-populating parent and its copy carry one
Part and one value. -/
theorem C2_parts_values_aligned_amended_witness :
    ((mosaicCtor wC0 oC).1.comps wC0.nextCid).map
      (fun c => (c.partsArr.map (fun pr => pr.2.length), c.values.map List.length)) =
      some (some oC.viewSpec.numParts, some oC.viewSpec.numParts) ∧
    ((mosaicNew (mosaicCtor wC0 oC).1 wC0.nextCid
        [("x", JSVal.num 5)]).1.comps (wC0.nextCid + 1)).map
      (fun c => (c.partsArr.map (fun pr => pr.2.length), c.values.map List.length)) =
      some (some oC.viewSpec.numParts, some oC.viewSpec.numParts) :=
  C2_parts_values_aligned_amended wC0 oC "C" 0
    [("x", JSVal.num 1), ("todos", JSVal.ref 1)] [("x", JSVal.num 5)]
    rfl rfl rfl rfl (by decide) rfl (fun l => rfl)

/-- C3 (amended): the cache-populating path (view invocation plus
`createParts`) runs exactly once per type id.  The first construction logs
one `viewInvoked` and one `partsCreated`; a second direct construction
with the same type id parses nothing (its log is unchanged) but — against
the original claim — gets an undefined `parts`, not the cached sequence;
a `new`-produced copy re-invokes the view yet never re-runs
`createParts` (the `partsCreated` count stays at one), and its `parts` is
a fresh `slice()` array, a different array object from the parent's, not
the identical cached one. -/
theorem C3_parse_once_amended (w : World) (o : Options) (t : String)
    (da : Nat) (fl : List (String × JSVal)) (patch : List (String × JSVal))
    (htid : o.tid = some t) (hfresh : w.table t = none) (hdata : o.data = some da)
    (hheap : w.heap da = some (HObj.obj fl)) (hda : da < w.next)
    (helem : o.element = none)
    (hwf : ∀ l, ((o.viewSpec.compute l).head?).map List.length =
      some o.viewSpec.numParts) :
    (mosaicCtor w o).1.log =
      w.log ++ [Event.viewInvoked t, Event.partsCreated t] ∧
    (mosaicCtor (mosaicCtor w o).1 o).1.log = (mosaicCtor w o).1.log ∧
    ((mosaicCtor (mosaicCtor w o).1 o).1.comps
        (mosaicCtor w o).1.nextCid).map (fun c => c.partsArr) = some none ∧
    (mosaicNew (mosaicCtor w o).1 w.nextCid patch).1.log.countP
        (fun e => e == Event.partsCreated t) =
      w.log.countP (fun e => e == Event.partsCreated t) + 1 ∧
    partsId (mosaicNew (mosaicCtor w o).1 w.nextCid patch).1 w.nextCid ≠
      partsId (mosaicNew (mosaicCtor w o).1 w.nextCid patch).1 (w.nextCid + 1) ∧
    (partsId (mosaicNew (mosaicCtor w o).1 w.nextCid patch).1 w.nextCid).isSome =
      true ∧
    (partsId (mosaicNew (mosaicCtor w o).1 w.nextCid patch).1
      (w.nextCid + 1)).isSome = true := by
  obtain ⟨h1, h2, h3, h4, h5, h6, h7, h8, h9, h10, h11, h12, h13, h14, h15, h16⟩ :=
    mosaicCtor_fresh_spec w o t da fl htid hfresh hdata hheap hda helem
  obtain ⟨tmpl, htmpl, _⟩ := Option.map_eq_some'.mp h4
  obtain ⟨row, hrow, hlen⟩ := Option.map_eq_some'.mp (hwf
    ((wrapFields (w.nextCid + 1)
      (mergeFields (wrapFields w.nextCid fl w).1 patch)
      ((mosaicCtor w o).1.alloc
        (HObj.obj (mergeFields (wrapFields w.nextCid fl w).1 patch))).1).1))
  obtain ⟨n1, n2, n3, n4, n5, n6, n7, n8, n9, n10, n11⟩ :=
    mosaicNew_spec (mosaicCtor w o).1 w.nextCid patch _ da ObsKind.dataObs
      w.nextCid (wrapFields w.nextCid fl w).1
      ((makeArraysObservable w.nextCid da w).next + 2)
      (mkParts o.viewSpec.numParts)
      ((makeArraysObservable w.nextCid da w).next + 3) false [] tmpl row
      h2 h12 h11 rfl rfl h16 (by omega) htmpl (by omega) (by rw [h7]; exact hrow)
  have hz : ∀ (l : List Nat),
      (l.map Event.commitPart).countP (fun e => e == Event.partsCreated t) = 0 := by
    intro l
    induction l with
    | nil => rfl
    | cons x xs ih => simp [List.countP_cons, ih]
  refine ⟨h3, ?_, ?_, ?_, ?_, ?_, ?_⟩
  · rw [mosaicCtor_cached_run (mosaicCtor w o).1 o t da tmpl htid htmpl hdata]
    simp [World.alloc_log, makeArraysObservable_log]
  · rw [mosaicCtor_cached_run (mosaicCtor w o).1 o t da tmpl htid htmpl hdata]
    simp
  · rw [n7, h3]
    simp [List.countP_append, List.countP_cons, hz]
  · unfold partsId
    rw [n3 w.nextCid (by omega), h2]
    rw [← h7, n2]
    simp only [Option.bind_eq_bind, Option.some_bind, Option.map_some]
    intro hcon
    have := Option.some.inj hcon
    omega
  · unfold partsId
    rw [n3 w.nextCid (by omega), h2]
    rfl
  · unfold partsId
    rw [← h7, n2]
    rfl

/-- Closed instance of the amended parse-once theorem on the clone
example: one `partsCreated "C"` overall, the second direct instance has
undefined `parts`, and the copy's Parts array is a distinct object from
the parent's. -/
theorem C3_parse_once_amended_witness :
    (mosaicCtor wC0 oC).1.log =
      wC0.log ++ [Event.viewInvoked "C", Event.partsCreated "C"] ∧
    (mosaicCtor (mosaicCtor wC0 oC).1 oC).1.log = (mosaicCtor wC0 oC).1.log ∧
    ((mosaicCtor (mosaicCtor wC0 oC).1 oC).1.comps
        (mosaicCtor wC0 oC).1.nextCid).map (fun c => c.partsArr) = some none ∧
    (mosaicNew (mosaicCtor wC0 oC).1 wC0.nextCid
        [("x", JSVal.num 5)]).1.log.countP
        (fun e => e == Event.partsCreated "C") =
      wC0.log.countP (fun e => e == Event.partsCreated "C") + 1 ∧
    partsId (mosaicNew (mosaicCtor wC0 oC).1 wC0.nextCid
        [("x", JSVal.num 5)]).1 wC0.nextCid ≠
      partsId (mosaicNew (mosaicCtor wC0 oC).1 wC0.nextCid
        [("x", JSVal.num 5)]).1 (wC0.nextCid + 1) ∧
    (partsId (mosaicNew (mosaicCtor wC0 oC).1 wC0.nextCid
        [("x", JSVal.num 5)]).1 wC0.nextCid).isSome = true ∧
    (partsId (mosaicNew (mosaicCtor wC0 oC).1 wC0.nextCid
        [("x", JSVal.num 5)]).1 (wC0.nextCid + 1)).isSome = true :=
  C3_parse_once_amended wC0 oC "C" 0
    [("x", JSVal.num 1), ("todos", JSVal.ref 1)] [("x", JSVal.num 5)]
    rfl rfl rfl rfl (by decide) rfl (fun l => rfl)
